import Mathlib

/- Verification of the ocpi-tariffs pricing engine against its specification.

   This file shallowly embeds the pricing core (`types/`, `session.rs`,
   `restriction.rs`, `tariff.rs`, `pricer.rs`) and proves properties of it.

   Modelling conventions:
   * `rust_decimal::Decimal` (the `Number` newtype) is an exact scaled decimal;
     it is embedded as `ℚ`.  Its `saturating_*` operations clamp at the 96-bit
     bound; that clamp is not modelled (arithmetic on decimals is exact here).
     `checked_div` occurs in the source only with divisors that are guarded
     non-zero, and is embedded as exact division.
   * `chrono::Duration` is an integer count of milliseconds bounded by
     ±(2^63 − 1); it is embedded as `ℤ` together with explicit clamping in
     `saturating_add` / `saturating_sub` / `from_seconds_number`, which the
     source implements via `checked_add` / `checked_sub` / `try_into::<i64>`.
   * `chrono::DateTime<Utc>` is embedded as `ℤ` (milliseconds since the epoch);
     `NaiveDate` as `ℤ` (days since 1970-01-01, which was a Thursday);
     `NaiveTime` as `ℕ` (nanoseconds since midnight).
   * A `chrono_tz::Tz` value is external zone data; it is embedded as a named
     total function from a UTC instant to the local civil date and civil
     time-of-day.  The zones produced by `try_detect_time_zone` carry the zone
     ids of the source table; their civil projection (data living in the
     external tz database, not in this repository) is represented by the UTC
     projection.  The string field `cdr_location.time_zone` is embedded
     already paired with its parse result (`some none` = a string the external
     parser rejects), since IANA-name parsing is external.
   * Rust panics (`todo!()`, `expect`, slice indexing) are embedded as
     `Option`: a `none` result is a panic. -/

/-- The error enum of `lib.rs`. -/
inductive Error where
  | NoValidTariff
  | NumericOverflow
  | TimeZoneMissing
  | TimeZoneInvalid
  deriving DecidableEq, Repr

/-- `types/number.rs` `Number`: exact decimal, embedded as `ℚ`. -/
abbrev Number := ℚ

/-- `Decimal::ceil`: smallest integer greater than or equal. -/
def Number.ceil (x : Number) : Number := ((⌈x⌉ : ℤ) : ℚ)

def Number.saturating_add (a b : Number) : Number := a + b

def Number.saturating_sub (a b : Number) : Number := a - b

def Number.saturating_mul (a b : Number) : Number := a * b

/-- Largest `i64`, the magnitude bound of a `chrono::Duration` in milliseconds. -/
def i64Max : Int := 9223372036854775807

/-- `types/time.rs` `HoursDecimal`: a `chrono::Duration`, an integer count of
milliseconds. -/
abbrev HoursDecimal := Int

def HoursDecimal.zero : HoursDecimal := 0

/-- `Duration::checked_add(..).unwrap_or_else(Duration::max_value)`. -/
def HoursDecimal.saturating_add (a b : HoursDecimal) : HoursDecimal :=
  if -i64Max ≤ a + b ∧ a + b ≤ i64Max then a + b else i64Max

/-- `Duration::checked_sub(..).unwrap_or_else(Duration::zero)`. -/
def HoursDecimal.saturating_sub (a b : HoursDecimal) : HoursDecimal :=
  if -i64Max ≤ a - b ∧ a - b ≤ i64Max then a - b else 0

/-- `num_milliseconds() / 1000` as an exact decimal. -/
def HoursDecimal.as_num_seconds_number (h : HoursDecimal) : Number := (h : ℚ) / 1000

/-- Truncation toward zero, as `Decimal::to_i64` truncates. -/
def ratTrunc (q : ℚ) : Int := if 0 ≤ q then ⌊q⌋ else ⌈q⌉

/-- `HoursDecimal::from_seconds_number`: seconds × 1000, converted to an `i64`
millisecond count; out of range is `NumericOverflow`. -/
def HoursDecimal.from_seconds_number (s : Number) : Except Error HoursDecimal :=
  let m : Int := ratTrunc (Number.saturating_mul s 1000)
  if -i64Max ≤ m ∧ m ≤ i64Max then Except.ok m else Except.error Error.NumericOverflow

/-- `types/electricity.rs` `Kwh`. -/
abbrev Kwh := ℚ

def Kwh.zero : Kwh := 0

def Kwh.saturating_add (a b : Kwh) : Kwh := a + b

def Kwh.saturating_sub (a b : Kwh) : Kwh := a - b

def Kwh.watt_hours (k : Kwh) : Number := Number.saturating_mul k 1000

def Kwh.from_watt_hours (n : Number) : Kwh := n / 1000

/-- `types/money.rs` `Money`. -/
abbrev Money := ℚ

/-- `types/money.rs` `Vat`: a percentage. -/
abbrev Vat := ℚ

/-- `Money × Kwh`. -/
def Money.kwh_cost (price : Money) (k : Kwh) : Money := price * k

/-- `Money × HoursDecimal`: `price * (num_milliseconds / 3_600_000)`. -/
def Money.time_cost (price : Money) (h : HoursDecimal) : Money :=
  price * ((h : ℚ) / 3600000)

/-- `Vat × Money`: `money * (vat / 100 + 1)`. -/
def Money.apply_vat (m : Money) (v : Vat) : Money := m * (v / 100 + 1)

/-- `ocpi/v221/tariff.rs` `CompatibilityVat`. -/
inductive CompatibilityVat where
  | Unknown
  | Vat (v : Option ℚ)
  deriving DecidableEq, Repr

/-- `types/money.rs` `Price`. -/
structure Price where
  excl_vat : Money
  incl_vat : Option Money
  deriving DecidableEq, Repr

/-- `Price::zero`. -/
def Price.zero : Price := ⟨0, some 0⟩

/-- `Price` addition: `incl_vat` is `none` unless both sides are `some`. -/
def Price.saturating_add (a b : Price) : Price :=
  { excl_vat := a.excl_vat + b.excl_vat
    incl_vat :=
      match a.incl_vat, b.incl_vat with
      | some x, some y => some (x + y)
      | _, _ => none }

/-- `chrono::Weekday`. -/
inductive Weekday where
  | Mon | Tue | Wed | Thu | Fri | Sat | Sun
  deriving DecidableEq, Repr

/-- `Weekday::pred`: the previous day of the week. -/
def Weekday.pred : Weekday → Weekday
  | .Mon => .Sun
  | .Tue => .Mon
  | .Wed => .Tue
  | .Thu => .Wed
  | .Fri => .Thu
  | .Sat => .Fri
  | .Sun => .Sat

/-- `chrono::NaiveTime`: nanoseconds since midnight. -/
abbrev NaiveTime := ℕ

/-- `chrono::NaiveDate`: days since 1970-01-01. -/
abbrev NaiveDate := Int

/-- `NaiveTime::num_seconds_from_midnight`. -/
def NaiveTime.num_seconds_from_midnight (t : NaiveTime) : ℕ := t / 1000000000

/-- The weekday of a civil date; day 0 (1970-01-01) was a Thursday. -/
def weekdayOfDate (d : NaiveDate) : Weekday :=
  match (Int.emod d 7).toNat with
  | 0 => .Thu
  | 1 => .Fri
  | 2 => .Sat
  | 3 => .Sun
  | 4 => .Mon
  | 5 => .Tue
  | _ => .Wed

/-- `chrono::DateTime<Utc>`: milliseconds since the epoch. -/
abbrev DateTime := Int

/-- A local civil date and time-of-day, the result of projecting a UTC
instant through a time zone. -/
structure LocalCivil where
  date : NaiveDate
  time : NaiveTime
  deriving DecidableEq, Repr

/-- `chrono_tz::Tz`: external zone data, embedded as a named projection from
UTC instants to local civil date and time. -/
structure Tz where
  name : String
  toLocal : DateTime → LocalCivil

/-- The UTC civil projection. -/
def utcCivil (t : DateTime) : LocalCivil :=
  ⟨Int.fdiv t 86400000, (Int.emod t 86400000).toNat * 1000000⟩

/-- A zone known only by its IANA id; its civil data lives in the external
tz database and is represented by the UTC projection. -/
def namedTz (n : String) : Tz := ⟨n, utcCivil⟩

def utcTz : Tz := namedTz "UTC"

/-- The country-code table of `try_detect_time_zone` in `types/time.rs`. -/
def countryZoneTable : List (String × String) :=
  [("AND", "Europe/Andorra"), ("ALB", "Europe/Tirane"), ("AUT", "Europe/Vienna"),
   ("BIH", "Europe/Sarajevo"), ("BEL", "Europe/Brussels"), ("BGR", "Europe/Sofia"),
   ("BLR", "Europe/Minsk"), ("CHE", "Europe/Zurich"), ("CYP", "Europe/Nicosia"),
   ("CZE", "Europe/Prague"), ("DEU", "Europe/Berlin"), ("DNK", "Europe/Copenhagen"),
   ("EST", "Europe/Tallinn"), ("ESP", "Europe/Madrid"), ("FIN", "Europe/Helsinki"),
   ("FRA", "Europe/Paris"), ("GBR", "Europe/London"), ("GRC", "Europe/Athens"),
   ("HRV", "Europe/Zagreb"), ("HUN", "Europe/Budapest"), ("IRN", "Europe/Dublin"),
   ("ISL", "Iceland"), ("ITA", "Europe/Rome"), ("LIE", "Europe/Vaduz"),
   ("LTU", "Europe/Vilnius"), ("LUX", "Europe/Luxembourg"), ("LVA", "Europe/Riga"),
   ("MCO", "Europe/Monaco"), ("MDA", "Europe/Chisinau"), ("MNE", "Europe/Podgorica"),
   ("MKD", "Europe/Skopje"), ("MLT", "Europe/Malta"), ("NLD", "Europe/Amsterdam"),
   ("NOR", "Europe/Oslo"), ("POL", "Europe/Warsaw"), ("PRT", "Europe/Lisbon"),
   ("ROU", "Europe/Bucharest"), ("SRB", "Europe/Belgrade"), ("RUS", "Europe/Moscow"),
   ("SWE", "Europe/Stockholm"), ("SVN", "Europe/Ljubljana"), ("SVK", "Europe/Bratislava"),
   ("SMR", "Europe/San_Marino"), ("TUR", "Turkey"), ("UKR", "Europe/Kiev")]

/-- `try_detect_time_zone` from `types/time.rs`. -/
def try_detect_time_zone (code : String) : Option Tz :=
  (countryZoneTable.lookup code).map namedTz

/-- `ocpi/cdr.rs` `OcpiCdrDimension`.  `Time`/`ParkingTime`/`ReservationTime`
volumes are `HoursDecimal` millisecond durations; currents and powers are
exact decimals. -/
inductive OcpiCdrDimension where
  | Energy (v : Kwh)
  | MaxCurrent (v : ℚ)
  | MinCurrent (v : ℚ)
  | MaxPower (v : ℚ)
  | MinPower (v : ℚ)
  | ParkingTime (v : HoursDecimal)
  | ReservationTime (v : HoursDecimal)
  | Time (v : HoursDecimal)
  deriving DecidableEq, Repr

/-- `ocpi/cdr.rs` `OcpiChargingPeriod`. -/
structure OcpiChargingPeriod where
  start_date_time : DateTime
  dimensions : List OcpiCdrDimension
  deriving DecidableEq, Repr

/-- `ocpi/tariff.rs` `OcpiTariffRestriction`.  `min_duration`/`max_duration`
are `SecondsRound` values already converted to millisecond durations. -/
structure OcpiTariffRestriction where
  start_time : Option NaiveTime
  end_time : Option NaiveTime
  start_date : Option NaiveDate
  end_date : Option NaiveDate
  min_kwh : Option ℚ
  max_kwh : Option ℚ
  min_current : Option ℚ
  max_current : Option ℚ
  min_power : Option ℚ
  max_power : Option ℚ
  min_duration : Option Int
  max_duration : Option Int
  day_of_week : List Weekday
  deriving DecidableEq, Repr

/-- `ocpi/tariff.rs` `TariffDimensionType`. -/
inductive TariffDimensionType where
  | Energy
  | Flat
  | ParkingTime
  | Time
  deriving DecidableEq, Repr

/-- `ocpi/tariff.rs` `OcpiPriceComponent`. -/
structure OcpiPriceComponent where
  component_type : TariffDimensionType
  price : Money
  vat : CompatibilityVat
  step_size : ℕ
  deriving DecidableEq, Repr

/-- `ocpi/tariff.rs` `OcpiTariffElement`. -/
structure OcpiTariffElement where
  price_components : List OcpiPriceComponent
  restrictions : Option OcpiTariffRestriction
  deriving DecidableEq, Repr

/-- `ocpi/tariff.rs` `OcpiTariff` (the fields the pricer consumes). -/
structure OcpiTariff where
  id : String
  currency : String
  elements : List OcpiTariffElement
  start_date_time : Option DateTime
  end_date_time : Option DateTime
  deriving DecidableEq, Repr

/-- `ocpi/cdr.rs` `cdr_location`: the country code and the optional IANA
zone string, the latter embedded together with its external parse result. -/
structure CdrLocation where
  country : String
  time_zone : Option (Option Tz)

/-- `ocpi/cdr.rs` `Cdr` (the fields the pricer consumes). -/
structure Cdr where
  start_date_time : DateTime
  end_date_time : DateTime
  currency : String
  cdr_location : CdrLocation
  tariffs : List OcpiTariff
  charging_periods : List OcpiChargingPeriod

/-- `session.rs` `PeriodData`: the dimensions constant over one period. -/
structure PeriodData where
  max_current : Option ℚ
  min_current : Option ℚ
  max_power : Option ℚ
  min_power : Option ℚ
  charging_duration : Option HoursDecimal
  parking_duration : Option HoursDecimal
  reservation_duration : Option HoursDecimal
  energy : Option Kwh
  deriving DecidableEq, Repr

def PeriodData.empty : PeriodData :=
  ⟨none, none, none, none, none, none, none, none⟩

/-- One step of the dimension loop in `PeriodData::new`. -/
def PeriodData.applyDimension (p : PeriodData) (d : OcpiCdrDimension) : PeriodData :=
  match d with
  | .MinCurrent v => { p with min_current := some v }
  | .MaxCurrent v => { p with max_current := some v }
  | .MaxPower v => { p with max_power := some v }
  | .MinPower v => { p with min_power := some v }
  | .Energy v => { p with energy := some v }
  | .Time v => { p with charging_duration := some v }
  | .ParkingTime v => { p with parking_duration := some v }
  | .ReservationTime v => { p with reservation_duration := some v }

/-- `PeriodData::new`. -/
def PeriodData.new (period : OcpiChargingPeriod) : PeriodData :=
  period.dimensions.foldl PeriodData.applyDimension PeriodData.empty

/-- `session.rs` `InstantData`. -/
structure InstantData where
  local_timezone : Tz
  date_time : DateTime
  total_charging_duration : HoursDecimal
  total_duration : HoursDecimal
  total_energy : Kwh

/-- `InstantData::zero`. -/
def InstantData.zero (dt : DateTime) (tz : Tz) : InstantData :=
  ⟨tz, dt, 0, 0, Kwh.zero⟩

/-- `InstantData::next`: advance to `dt`, accumulating the period's data. -/
def InstantData.next (s : InstantData) (state : PeriodData) (dt : DateTime) : InstantData :=
  let duration := dt - s.date_time
  { s with
    date_time := dt
    total_duration := HoursDecimal.saturating_add s.total_duration duration
    total_charging_duration :=
      match state.charging_duration with
      | some d => HoursDecimal.saturating_add s.total_charging_duration d
      | none => s.total_charging_duration
    total_energy :=
      match state.energy with
      | some e => Kwh.saturating_add s.total_energy e
      | none => s.total_energy }

def InstantData.local_time (i : InstantData) : NaiveTime :=
  (i.local_timezone.toLocal i.date_time).time

def InstantData.local_date (i : InstantData) : NaiveDate :=
  (i.local_timezone.toLocal i.date_time).date

def InstantData.local_weekday (i : InstantData) : Weekday :=
  weekdayOfDate (InstantData.local_date i)

/-- `session.rs` `ChargePeriod`. -/
structure ChargePeriod where
  period_data : PeriodData
  start_instant : InstantData
  end_instant : InstantData

/-- `ChargePeriod::new`: first period, zero cumulative values. -/
def ChargePeriod.new (tz : Tz) (period : OcpiChargingPeriod) (end_date_time : DateTime) :
    ChargePeriod :=
  let charge_state := PeriodData.new period
  let start_instant := InstantData.zero period.start_date_time tz
  ⟨charge_state, start_instant, InstantData.next start_instant charge_state end_date_time⟩

/-- `ChargePeriod::next`: successor period, cumulative values carried over. -/
def ChargePeriod.next (prev : ChargePeriod) (period : OcpiChargingPeriod)
    (end_date_time : DateTime) : ChargePeriod :=
  let charge_state := PeriodData.new period
  let start_instant := prev.end_instant
  ⟨charge_state, start_instant, InstantData.next start_instant charge_state end_date_time⟩

/-- The loop of `ChargeSession::new`: each period ends at the next period's
start, the last at the session end. -/
def chargeSessionGo (tz : Tz) (session_end : DateTime) :
    Option ChargePeriod → List OcpiChargingPeriod → List ChargePeriod
  | _, [] => []
  | prev, p :: rest =>
    let e :=
      match rest.head? with
      | some nxt => nxt.start_date_time
      | none => session_end
    let cp :=
      match prev with
      | some last => ChargePeriod.next last p e
      | none => ChargePeriod.new tz p e
    cp :: chargeSessionGo tz session_end (some cp) rest

/-- `session.rs` `ChargeSession`. -/
structure ChargeSession where
  start_date_time : DateTime
  periods : List ChargePeriod

/-- `ChargeSession::new`. -/
def ChargeSession.new (cdr : Cdr) (tz : Tz) : ChargeSession :=
  ⟨cdr.start_date_time, chargeSessionGo tz cdr.end_date_time none cdr.charging_periods⟩

/-- `restriction.rs` `Restriction`. -/
inductive Restriction where
  | StartTime (t : NaiveTime)
  | EndTime (t : NaiveTime)
  | WrappingTime (start_time end_time : NaiveTime)
  | StartDate (d : NaiveDate)
  | EndDate (d : NaiveDate)
  | MinKwh (v : ℚ)
  | MaxKwh (v : ℚ)
  | MinCurrent (v : ℚ)
  | MaxCurrent (v : ℚ)
  | MinPower (v : ℚ)
  | MaxPower (v : ℚ)
  | MinDuration (d : Int)
  | MaxDuration (d : Int)
  | DayOfWeek (days : List Weekday)
  | Reservation
  deriving DecidableEq, Repr

/-- One optional restriction, as pushed by `collect_restrictions`. -/
def optRestriction {α : Type} (o : Option α) (f : α → Restriction) : List Restriction :=
  match o with
  | some a => [f a]
  | none => []

/-- `restriction.rs` `collect_restrictions`: the time pair first (wrapping when
`end_time < start_time`), then the remaining optional restrictions in source
order. -/
def collect_restrictions (r : OcpiTariffRestriction) : List Restriction :=
  (match r.start_time, r.end_time with
   | some s, some e =>
     if e < s then [Restriction.WrappingTime s e]
     else [Restriction.StartTime s, Restriction.EndTime e]
   | some s, none => [Restriction.StartTime s]
   | none, some e => [Restriction.EndTime e]
   | none, none => [])
  ++ optRestriction r.start_date Restriction.StartDate
  ++ optRestriction r.end_date Restriction.EndDate
  ++ optRestriction r.min_kwh Restriction.MinKwh
  ++ optRestriction r.max_kwh Restriction.MaxKwh
  ++ optRestriction r.min_current Restriction.MinCurrent
  ++ optRestriction r.max_current Restriction.MaxCurrent
  ++ optRestriction r.min_power Restriction.MinPower
  ++ optRestriction r.max_power Restriction.MaxPower
  ++ optRestriction r.min_duration Restriction.MinDuration
  ++ optRestriction r.max_duration Restriction.MaxDuration
  ++ (if r.day_of_week = [] then [] else [Restriction.DayOfWeek r.day_of_week])

/-- `Restriction::instant_validity_exclusive`. -/
def Restriction.instant_validity_exclusive (r : Restriction) (instant : InstantData) : Bool :=
  match r with
  | .WrappingTime start_time end_time =>
    decide (start_time ≤ InstantData.local_time instant) ||
      decide (InstantData.local_time instant < end_time)
  | .StartTime start_time => decide (start_time ≤ InstantData.local_time instant)
  | .EndTime end_time => decide (InstantData.local_time instant < end_time)
  | .StartDate start_date => decide (start_date ≤ InstantData.local_date instant)
  | .EndDate end_date => decide (InstantData.local_date instant < end_date)
  | .MinKwh min_energy => decide (min_energy ≤ instant.total_energy)
  | .MaxKwh max_energy => decide (instant.total_energy < max_energy)
  | .MinDuration min_duration => decide (min_duration ≤ instant.total_duration)
  | .MaxDuration max_duration => decide (instant.total_duration < max_duration)
  | .DayOfWeek days => days.contains (InstantData.local_weekday instant)
  | _ => true

/-- `Restriction::instant_validity_inclusive`. -/
def Restriction.instant_validity_inclusive (r : Restriction) (instant : InstantData) : Bool :=
  match r with
  | .WrappingTime start_time end_time =>
    decide (start_time ≤ InstantData.local_time instant) ||
      decide (InstantData.local_time instant < end_time)
  | .EndTime end_time => decide (InstantData.local_time instant ≤ end_time)
  | .EndDate end_date =>
    let is_before_end_date := decide (InstantData.local_date instant < end_date)
    let is_on_end_date := decide (InstantData.local_date instant = end_date)
    let is_at_midnight :=
      decide (NaiveTime.num_seconds_from_midnight (InstantData.local_time instant) = 0)
    is_before_end_date || (is_on_end_date && is_at_midnight)
  | .MinKwh min_energy => decide (min_energy ≤ instant.total_energy)
  | .MaxKwh max_energy => decide (instant.total_energy < max_energy)
  | .MinDuration min_duration => decide (min_duration ≤ instant.total_duration)
  | .MaxDuration max_duration => decide (instant.total_duration < max_duration)
  | .DayOfWeek days =>
    let includes_weekday := days.contains (InstantData.local_weekday instant)
    let includes_day_before :=
      days.contains (Weekday.pred (InstantData.local_weekday instant))
    let is_at_midnight :=
      decide (NaiveTime.num_seconds_from_midnight (InstantData.local_time instant) = 0)
    includes_weekday || (includes_day_before && is_at_midnight)
  | _ => true

/-- `Restriction::period_validity`; the `Reservation` arm is `todo!()`,
embedded as `none`. -/
def Restriction.period_validity (r : Restriction) (state : PeriodData) : Option Bool :=
  match r with
  | .MinCurrent min_current =>
    some (match state.min_current with
          | some current => decide (min_current ≤ current)
          | none => true)
  | .MaxCurrent max_current =>
    some (match state.max_current with
          | some current => decide (current < max_current)
          | none => true)
  | .MinPower min_power =>
    some (match state.min_power with
          | some power => decide (min_power ≤ power)
          | none => true)
  | .MaxPower max_power =>
    some (match state.max_power with
          | some power => decide (power < max_power)
          | none => true)
  | .Reservation => none
  | _ => some true

/-- `tariff.rs` `PriceComponent`. -/
structure PriceComponent where
  tariff_element_index : ℕ
  price : Money
  vat : CompatibilityVat
  step_size : ℕ
  deriving DecidableEq, Repr

/-- `PriceComponent::new`. -/
def PriceComponent.new (c : OcpiPriceComponent) (tariff_element_index : ℕ) : PriceComponent :=
  ⟨tariff_element_index, c.price, c.vat, c.step_size⟩

/-- `tariff.rs` `PriceComponents`. -/
structure PriceComponents where
  flat : Option PriceComponent
  energy : Option PriceComponent
  parking : Option PriceComponent
  time : Option PriceComponent
  deriving DecidableEq, Repr

def PriceComponents.empty : PriceComponents := ⟨none, none, none, none⟩

def PriceComponents.has_all_components (c : PriceComponents) : Bool :=
  c.flat.isSome && c.energy.isSome && c.parking.isSome && c.time.isSome

/-- `Option::get_or_insert`: keep the first component of each dimension. -/
def getOrInsert (o : Option PriceComponent) (c : PriceComponent) : Option PriceComponent :=
  match o with
  | some x => some x
  | none => some c

/-- The component loop of `TariffElement::new`. -/
def insertComponent (cs : PriceComponents) (oc : OcpiPriceComponent) (idx : ℕ) :
    PriceComponents :=
  let pc := PriceComponent.new oc idx
  match oc.component_type with
  | .Flat => { cs with flat := getOrInsert cs.flat pc }
  | .Time => { cs with time := getOrInsert cs.time pc }
  | .ParkingTime => { cs with parking := getOrInsert cs.parking pc }
  | .Energy => { cs with energy := getOrInsert cs.energy pc }

/-- `tariff.rs` `TariffElement`. -/
structure TariffElement where
  restrictions : List Restriction
  components : PriceComponents

/-- `TariffElement::new`. -/
def TariffElement.new (e : OcpiTariffElement) (element_index : ℕ) : TariffElement :=
  { restrictions :=
      match e.restrictions with
      | some r => collect_restrictions r
      | none => []
    components :=
      e.price_components.foldl (fun cs oc => insertComponent cs oc element_index)
        PriceComponents.empty }

/-- The restriction loop of `TariffElement::is_active`: each restriction is
checked at the period start (exclusive mode) and against the period data, in
order, with early exit on a failing restriction; a `Reservation` restriction
reached panics (`none`). -/
def isActiveGo (instant : InstantData) (state : PeriodData) :
    List Restriction → Option Bool
  | [] => some true
  | r :: rest =>
    if Restriction.instant_validity_exclusive r instant = false then some false
    else
      match Restriction.period_validity r state with
      | none => none
      | some false => some false
      | some true => isActiveGo instant state rest

/-- `TariffElement::is_active`. -/
def TariffElement.is_active (e : TariffElement) (period : ChargePeriod) : Option Bool :=
  isActiveGo period.start_instant period.period_data e.restrictions

/-- `TariffElement::is_active_at_end`: all restrictions hold at the period end
in inclusive mode. -/
def TariffElement.is_active_at_end (e : TariffElement) (period : ChargePeriod) : Bool :=
  e.restrictions.all fun r => Restriction.instant_validity_inclusive r period.end_instant

/-- `tariff.rs` `Tariff`. -/
structure Tariff where
  id : String
  elements : List TariffElement
  start_date_time : Option DateTime
  end_date_time : Option DateTime

/-- `Tariff::new`. -/
def Tariff.new (t : OcpiTariff) : Tariff :=
  { id := t.id
    elements := (t.elements.enum.map fun (i, e) => TariffElement.new e i)
    start_date_time := t.start_date_time
    end_date_time := t.end_date_time }

/-- `Tariff::is_active`: the validity window contains `start_time`; an absent
bound is unbounded on that side. -/
def Tariff.is_active (t : Tariff) (start_time : DateTime) : Bool :=
  (match t.start_date_time with
   | some s => decide (s ≤ start_time)
   | none => true) &&
  (match t.end_date_time with
   | some e => decide (start_time < e)
   | none => true)

/-- The element loop of `Tariff::active_components`: skip inactive elements,
fill each still-empty dimension from the element, stop when all four are
filled. -/
def activeComponentsGo (period : ChargePeriod) :
    List TariffElement → PriceComponents → Option PriceComponents
  | [], acc => some acc
  | e :: rest, acc =>
    match TariffElement.is_active e period with
    | none => none
    | some false => activeComponentsGo period rest acc
    | some true =>
      let acc :=
        { time := match acc.time with | none => e.components.time | some c => some c
          parking := match acc.parking with | none => e.components.parking | some c => some c
          energy := match acc.energy with | none => e.components.energy | some c => some c
          flat := match acc.flat with | none => e.components.flat | some c => some c }
      if PriceComponents.has_all_components acc then some acc
      else activeComponentsGo period rest acc

/-- `Tariff::active_components`. -/
def Tariff.active_components (t : Tariff) (period : ChargePeriod) : Option PriceComponents :=
  activeComponentsGo period t.elements PriceComponents.empty

/-- `pricer.rs` `DimensionReport<V>`. -/
structure DimensionReport (V : Type) where
  price : Option PriceComponent
  volume : Option V
  billed_volume : Option V
  deriving DecidableEq, Repr

/-- `DimensionReport::new`: the billed volume starts out equal to the raw
volume. -/
def DimensionReport.new {V : Type} (price_component : Option PriceComponent)
    (volume : Option V) : DimensionReport V :=
  ⟨price_component, volume, volume⟩

/-- The `Dimension` trait of `pricer.rs`: the cost of a volume at a price. -/
class Dimension (V : Type) where
  cost : V → Money → Money

instance instDimensionKwh : Dimension Kwh := ⟨fun v price => Money.kwh_cost price v⟩

instance instDimensionHours : Dimension HoursDecimal := ⟨fun v price => Money.time_cost price v⟩

instance instDimensionUnit : Dimension Unit := ⟨fun _ price => price⟩

/-- `DimensionReport::cost`: present iff both a billed volume and an active
price component are; `incl_vat` per the component's `CompatibilityVat`. -/
def DimensionReport.cost {V : Type} [Dimension V] (d : DimensionReport V) : Option Price :=
  match d.billed_volume, d.price with
  | some volume, some price =>
    let excl_vat := Dimension.cost volume price.price
    let incl_vat : Option Money :=
      match price.vat with
      | CompatibilityVat.Vat (some vat) => some (Money.apply_vat excl_vat vat)
      | CompatibilityVat.Vat none => some excl_vat
      | CompatibilityVat.Unknown => none
    some ⟨excl_vat, incl_vat⟩
  | _, _ => none

/-- `pricer.rs` `Dimensions`. -/
structure Dimensions where
  flat : DimensionReport Unit
  energy : DimensionReport Kwh
  time : DimensionReport HoursDecimal
  parking_time : DimensionReport HoursDecimal
  deriving DecidableEq, Repr

/-- `Dimensions::new`. -/
def Dimensions.new (components : PriceComponents) (data : PeriodData) : Dimensions :=
  { parking_time := DimensionReport.new components.parking data.parking_duration
    time := DimensionReport.new components.time data.charging_duration
    energy := DimensionReport.new components.energy data.energy
    flat := DimensionReport.new components.flat (some ()) }

/-- `pricer.rs` `PeriodReport`. -/
structure PeriodReport where
  start_date_time : DateTime
  end_date_time : DateTime
  dimensions : Dimensions
  deriving DecidableEq, Repr

/-- `PeriodReport::new`. -/
def PeriodReport.new (period : ChargePeriod) (dimensions : Dimensions) : PeriodReport :=
  ⟨period.start_instant.date_time, period.end_instant.date_time, dimensions⟩

/-- The cost-option accumulator used by `build_report` and
`PeriodReport::cost`: `none` only when both sides are `none`, a missing side
otherwise counting as zero. -/
def accumulate_cost (total next : Option Price) : Option Price :=
  match total, next with
  | none, none => none
  | t, n => some (Price.saturating_add (t.getD Price.zero) (n.getD Price.zero))

/-- `PeriodReport::cost`: fold the four dimension costs. -/
def PeriodReport.cost (p : PeriodReport) : Option Price :=
  [DimensionReport.cost p.dimensions.time,
   DimensionReport.cost p.dimensions.parking_time,
   DimensionReport.cost p.dimensions.flat,
   DimensionReport.cost p.dimensions.energy].foldl accumulate_cost none

/-- `pricer.rs` `Report`. -/
structure Report where
  periods : List PeriodReport
  tariff_index : ℕ
  tariff_id : String
  time_zone : String
  total_cost : Option Price
  total_time_cost : Option Price
  total_time : HoursDecimal
  total_charging_time : HoursDecimal
  billed_charging_time : HoursDecimal
  total_parking_cost : Option Price
  total_parking_time : HoursDecimal
  billed_parking_time : HoursDecimal
  total_energy_cost : Option Price
  total_energy : Kwh
  billed_energy : Kwh
  total_fixed_cost : Option Price
  total_reservation_cost : Option Price
  deriving DecidableEq, Repr

/-- `pricer.rs` `StepSize`: per dimension, the last period index that carried
a volume for the dimension while a price component was active, with that
component. -/
structure StepSize where
  time : Option (ℕ × PriceComponent)
  parking_time : Option (ℕ × PriceComponent)
  energy : Option (ℕ × PriceComponent)
  deriving DecidableEq, Repr

/-- `StepSize::new`. -/
def StepSize.new : StepSize := ⟨none, none, none⟩

/-- `StepSize::update`. -/
def StepSize.update (s : StepSize) (index : ℕ) (components : PriceComponents)
    (period : ChargePeriod) : StepSize :=
  { energy :=
      match period.period_data.energy, components.energy with
      | some _, some energy => some (index, energy)
      | _, _ => s.energy
    time :=
      match period.period_data.charging_duration, components.time with
      | some _, some time => some (index, time)
      | _, _ => s.time
    parking_time :=
      match period.period_data.parking_duration, components.parking with
      | some _, some parking => some (index, parking)
      | _, _ => s.parking_time }

/-- `StepSize::duration_step_size`: round the session total up to a multiple
of `step_size` seconds and add the delta to the given period volume.  Returns
the billed session total and the updated period volume. -/
def StepSize.duration_step_size (total_volume period_billed_volume : HoursDecimal)
    (step_size : ℕ) : Except Error (HoursDecimal × HoursDecimal) :=
  if step_size > 0 then
    let total_seconds := HoursDecimal.as_num_seconds_number total_volume
    match HoursDecimal.from_seconds_number
        (Number.saturating_mul (Number.ceil (total_seconds / (step_size : ℚ)))
          (step_size : ℚ)) with
    | Except.error e => Except.error e
    | Except.ok total_billed_volume =>
      let period_delta_volume := HoursDecimal.saturating_sub total_billed_volume total_volume
      Except.ok (total_billed_volume,
        HoursDecimal.saturating_add period_billed_volume period_delta_volume)
  else Except.ok (total_volume, period_billed_volume)

def PeriodReport.setTimeBilled (p : PeriodReport) (v : HoursDecimal) : PeriodReport :=
  { p with dimensions :=
      { p.dimensions with time := { p.dimensions.time with billed_volume := some v } } }

def PeriodReport.setParkingBilled (p : PeriodReport) (v : HoursDecimal) : PeriodReport :=
  { p with dimensions :=
      { p.dimensions with parking_time :=
          { p.dimensions.parking_time with billed_volume := some v } } }

def PeriodReport.setEnergyBilled (p : PeriodReport) (v : Kwh) : PeriodReport :=
  { p with dimensions :=
      { p.dimensions with energy := { p.dimensions.energy with billed_volume := some v } } }

/-- `StepSize::apply_time`: applied only when a time anchor exists and no
parking anchor does.  The slice index and the `expect` on the billed volume
are panics (`none`). -/
def StepSize.apply_time (s : StepSize) (periods : List PeriodReport)
    (total : HoursDecimal) : Option (Except Error (List PeriodReport × HoursDecimal)) :=
  match s.time, s.parking_time with
  | some (time_index, price), none =>
    match periods.get? time_index with
    | none => none
    | some period =>
      match period.dimensions.time.billed_volume with
      | none => none
      | some volume =>
        match StepSize.duration_step_size total volume price.step_size with
        | Except.error e => some (Except.error e)
        | Except.ok (total_billed, new_volume) =>
          some (Except.ok
            (periods.set time_index (PeriodReport.setTimeBilled period new_volume),
             total_billed))
  | _, _ => some (Except.ok (periods, total))

/-- `StepSize::apply_parking_time`. -/
def StepSize.apply_parking_time (s : StepSize) (periods : List PeriodReport)
    (total : HoursDecimal) : Option (Except Error (List PeriodReport × HoursDecimal)) :=
  match s.parking_time with
  | some (parking_index, price) =>
    match periods.get? parking_index with
    | none => none
    | some period =>
      match period.dimensions.parking_time.billed_volume with
      | none => none
      | some volume =>
        match StepSize.duration_step_size total volume price.step_size with
        | Except.error e => some (Except.error e)
        | Except.ok (total_billed, new_volume) =>
          some (Except.ok
            (periods.set parking_index (PeriodReport.setParkingBilled period new_volume),
             total_billed))
  | none => some (Except.ok (periods, total))

/-- `StepSize::apply_energy`: round the watt-hour total up to a multiple of
`step_size` and add the delta to the anchor period. -/
def StepSize.apply_energy (s : StepSize) (periods : List PeriodReport)
    (total_volume : Kwh) : Option (List PeriodReport × Kwh) :=
  match s.energy with
  | some (energy_index, price) =>
    if price.step_size > 0 then
      match periods.get? energy_index with
      | none => none
      | some period =>
        match period.dimensions.energy.billed_volume with
        | none => none
        | some period_billed_volume =>
          let total_billed_volume :=
            Kwh.from_watt_hours
              (Number.saturating_mul
                (Number.ceil (Kwh.watt_hours total_volume / (price.step_size : ℚ)))
                (price.step_size : ℚ))
          let period_delta_volume := Kwh.saturating_sub total_billed_volume total_volume
          some
            (periods.set energy_index
              (PeriodReport.setEnergyBilled period
                (Kwh.saturating_add period_billed_volume period_delta_volume)),
             total_billed_volume)
    else some (periods, total_volume)
  | none => some (periods, total_volume)

/-- The running state of the period loop in `Pricer::build_report`. -/
structure LoopState where
  index : ℕ
  periods : List PeriodReport
  step_size : StepSize
  total_energy : Kwh
  total_charging_time : HoursDecimal
  total_parking_time : HoursDecimal
  has_flat_fee : Bool
  deriving DecidableEq, Repr

def LoopState.init : LoopState :=
  ⟨0, [], StepSize.new, Kwh.zero, HoursDecimal.zero, HoursDecimal.zero, false⟩

/-- The flat-fee dedup block of the period loop: a selected flat component is
dropped when the session flag is already set, and the flag becomes set as soon
as one is selected. -/
def dropFlat (components0 : PriceComponents) (has_flat_fee : Bool) :
    PriceComponents × Bool :=
  if components0.flat.isSome then
    if has_flat_fee then ({ components0 with flat := none }, true)
    else (components0, true)
  else (components0, has_flat_fee)

/-- One iteration of the period loop in `Pricer::build_report`: select active
components, dedup the flat fee, update the step-size anchors, record the
dimension reports and accumulate the session totals. -/
def processPeriod (tariff : Tariff) (st : LoopState) (period : ChargePeriod) :
    Option LoopState :=
  match Tariff.active_components tariff period with
  | none => none
  | some components0 =>
    let flat_pair := dropFlat components0 st.has_flat_fee
    let components := flat_pair.1
    let step_size := StepSize.update st.step_size st.index components period
    let dimensions := Dimensions.new components period.period_data
    some
      { index := st.index + 1
        periods := st.periods ++ [PeriodReport.new period dimensions]
        step_size := step_size
        total_energy :=
          Kwh.saturating_add st.total_energy (dimensions.energy.volume.getD Kwh.zero)
        total_charging_time :=
          HoursDecimal.saturating_add st.total_charging_time
            (dimensions.time.volume.getD HoursDecimal.zero)
        total_parking_time :=
          HoursDecimal.saturating_add st.total_parking_time
            (dimensions.parking_time.volume.getD HoursDecimal.zero)
        has_flat_fee := flat_pair.2 }

/-- The period loop of `Pricer::build_report`. -/
def processPeriods (tariff : Tariff) (st : LoopState) :
    List ChargePeriod → Option LoopState
  | [] => some st
  | p :: rest =>
    match processPeriod tariff st p with
    | none => none
    | some st2 => processPeriods tariff st2 rest

/-- One per-dimension cost total of `Pricer::build_report`: fold
`accumulate_cost` over the periods' costs for that dimension. -/
def sumDimCost (f : Dimensions → Option Price) (periods : List PeriodReport) :
    Option Price :=
  periods.foldl (fun acc p => accumulate_cost acc (f p.dimensions)) none

/-- `pricer.rs` `Pricer`. -/
structure Pricer where
  cdr : Cdr
  tariffs : Option (List OcpiTariff)
  time_zone : Option Tz
  detect_time_zone : Bool

/-- `Pricer::new`. -/
def Pricer.new (cdr : Cdr) : Pricer := ⟨cdr, none, none, false⟩

/-- `Pricer::with_tariffs`. -/
def Pricer.with_tariffs (p : Pricer) (tariffs : List OcpiTariff) : Pricer :=
  { p with tariffs := some tariffs }

/-- `Pricer::with_time_zone`. -/
def Pricer.with_time_zone (p : Pricer) (tz : Tz) : Pricer :=
  { p with time_zone := some tz }

/-- The time-zone resolution at the top of `Pricer::build_report`: an explicit
zone wins, else the CDR's zone string (whose failed parse is
`TimeZoneInvalid`), else detection by country code when enabled. -/
def Pricer.resolve_time_zone (p : Pricer) : Except Error Tz :=
  match p.time_zone with
  | some tz => Except.ok tz
  | none =>
    match p.cdr.cdr_location.time_zone with
    | some parsed =>
      match parsed with
      | some tz => Except.ok tz
      | none => Except.error Error.TimeZoneInvalid
    | none =>
      if p.detect_time_zone then
        match try_detect_time_zone p.cdr.cdr_location.country with
        | some tz => Except.ok tz
        | none => Except.error Error.TimeZoneMissing
      else Except.error Error.TimeZoneMissing

/-- The enumerated find of `Pricer::first_active_tariff`. -/
def firstActiveGo (i : ℕ) (start_date_time : DateTime) :
    List OcpiTariff → Option (ℕ × Tariff)
  | [] => none
  | t :: rest =>
    let tr := Tariff.new t
    if Tariff.is_active tr start_date_time then some (i, tr)
    else firstActiveGo (i + 1) start_date_time rest

/-- `Pricer::first_active_tariff`: the first tariff, in list order, active at
the session start. -/
def first_active_tariff (tariffs : List OcpiTariff) (start_date_time : DateTime) :
    Option (ℕ × Tariff) :=
  firstActiveGo 0 start_date_time tariffs

/-- The tariff choice of `Pricer::build_report`: supplied tariffs override the
CDR's; an empty CDR list (with none supplied) yields no tariff. -/
def Pricer.select_tariff (p : Pricer) (start_date_time : DateTime) :
    Option (ℕ × Tariff) :=
  match p.tariffs with
  | some tariffs => first_active_tariff tariffs start_date_time
  | none =>
    if p.cdr.tariffs ≠ [] then first_active_tariff p.cdr.tariffs start_date_time
    else none

/-- `Pricer::build_report`.  `none` is a panic; otherwise the `Result`. -/
def Pricer.build_report (p : Pricer) : Option (Except Error Report) :=
  match Pricer.resolve_time_zone p with
  | Except.error e => some (Except.error e)
  | Except.ok time_zone =>
    let cdr := ChargeSession.new p.cdr time_zone
    match Pricer.select_tariff p cdr.start_date_time with
    | none => some (Except.error Error.NoValidTariff)
    | some (tariff_index, tariff) =>
      match processPeriods tariff LoopState.init cdr.periods with
      | none => none
      | some st =>
        match StepSize.apply_time st.step_size st.periods st.total_charging_time with
        | none => none
        | some (Except.error e) => some (Except.error e)
        | some (Except.ok (periods1, billed_charging_time)) =>
          match StepSize.apply_energy st.step_size periods1 st.total_energy with
          | none => none
          | some (periods2, billed_energy) =>
            match StepSize.apply_parking_time st.step_size periods2 st.total_parking_time with
            | none => none
            | some (Except.error e) => some (Except.error e)
            | some (Except.ok (periods3, billed_parking_time)) =>
              let total_energy_cost :=
                sumDimCost (fun d => DimensionReport.cost d.energy) periods3
              let total_time_cost :=
                sumDimCost (fun d => DimensionReport.cost d.time) periods3
              let total_parking_cost :=
                sumDimCost (fun d => DimensionReport.cost d.parking_time) periods3
              let total_fixed_cost :=
                sumDimCost (fun d => DimensionReport.cost d.flat) periods3
              let total_time : HoursDecimal :=
                match periods3.head?, periods3.getLast? with
                | some first, some last => last.end_date_time - first.start_date_time
                | _, _ => HoursDecimal.zero
              let total_cost :=
                [total_time_cost, total_parking_cost, total_fixed_cost,
                 total_energy_cost].foldl accumulate_cost none
              some (Except.ok
                { periods := periods3
                  tariff_index := tariff_index
                  tariff_id := tariff.id
                  time_zone := time_zone.name
                  total_cost := total_cost
                  total_time_cost := total_time_cost
                  total_time := total_time
                  total_charging_time := st.total_charging_time
                  billed_charging_time := billed_charging_time
                  total_parking_cost := total_parking_cost
                  total_parking_time := st.total_parking_time
                  billed_parking_time := billed_parking_time
                  total_energy_cost := total_energy_cost
                  total_energy := st.total_energy
                  billed_energy := billed_energy
                  total_fixed_cost := total_fixed_cost
                  total_reservation_cost := none })

/-- Classification of the time-of-day restriction variants. -/
def Restriction.isTimeOfDay : Restriction → Bool
  | .StartTime _ => true
  | .EndTime _ => true
  | .WrappingTime _ _ => true
  | _ => false

lemma optRestriction_all_not_time {α : Type} (o : Option α) (f : α → Restriction)
    (hf : ∀ a, Restriction.isTimeOfDay (f a) = false) :
    ((optRestriction o f).all fun x => ! Restriction.isTimeOfDay x) = true := by
  cases o <;> simp [optRestriction, hf]

lemma collect_tail_not_time (r : OcpiTariffRestriction) :
    ((optRestriction r.start_date Restriction.StartDate
      ++ optRestriction r.end_date Restriction.EndDate
      ++ optRestriction r.min_kwh Restriction.MinKwh
      ++ optRestriction r.max_kwh Restriction.MaxKwh
      ++ optRestriction r.min_current Restriction.MinCurrent
      ++ optRestriction r.max_current Restriction.MaxCurrent
      ++ optRestriction r.min_power Restriction.MinPower
      ++ optRestriction r.max_power Restriction.MaxPower
      ++ optRestriction r.min_duration Restriction.MinDuration
      ++ optRestriction r.max_duration Restriction.MaxDuration
      ++ (if r.day_of_week = [] then []
          else [Restriction.DayOfWeek r.day_of_week])).all
        fun x => ! Restriction.isTimeOfDay x) = true := by
  simp only [List.all_append, Bool.and_eq_true]
  refine ⟨⟨⟨⟨⟨⟨⟨⟨⟨⟨?_, ?_⟩, ?_⟩, ?_⟩, ?_⟩, ?_⟩, ?_⟩, ?_⟩, ?_⟩, ?_⟩, ?_⟩
  all_goals first
    | exact optRestriction_all_not_time _ _ (fun _ => rfl)
    | (split <;> simp [Restriction.isTimeOfDay])

/-- C9: evaluating the period validity of the `Reservation` restriction never
returns a value: for every `PeriodData` the `todo!()` branch (embedded as
`none`) is reached, so evaluation is not total for any tariff whose elements
carry a reservation restriction. -/
theorem C9_reservation_validity_unimplemented (state : PeriodData) :
    Restriction.period_validity Restriction.Reservation state = none := rfl

/-- C6: when a restriction input carries both a `start_time` and an `end_time`
with `end_time < start_time`, `collect_restrictions` constructs exactly one
`WrappingTime` restriction — at the head of the list, with no further
`StartTime`/`EndTime`/`WrappingTime` — and in both the exclusive-at-start and
the inclusive-at-end mode it holds at an instant iff
`local_time ≥ start_time ∨ local_time < end_time`. -/
theorem C6_wrapping_time (r : OcpiTariffRestriction) (s e : NaiveTime)
    (hs : r.start_time = some s) (he : r.end_time = some e) (hlt : e < s) :
    ((collect_restrictions r).head? = some (Restriction.WrappingTime s e)) ∧
    (((collect_restrictions r).tail.all fun x => ! Restriction.isTimeOfDay x) = true) ∧
    ∀ i : InstantData,
      (Restriction.instant_validity_exclusive (Restriction.WrappingTime s e) i = true ↔
        (s ≤ InstantData.local_time i ∨ InstantData.local_time i < e)) ∧
      (Restriction.instant_validity_inclusive (Restriction.WrappingTime s e) i = true ↔
        (s ≤ InstantData.local_time i ∨ InstantData.local_time i < e)) := by
  have hcol : collect_restrictions r = Restriction.WrappingTime s e ::
      (optRestriction r.start_date Restriction.StartDate
        ++ optRestriction r.end_date Restriction.EndDate
        ++ optRestriction r.min_kwh Restriction.MinKwh
        ++ optRestriction r.max_kwh Restriction.MaxKwh
        ++ optRestriction r.min_current Restriction.MinCurrent
        ++ optRestriction r.max_current Restriction.MaxCurrent
        ++ optRestriction r.min_power Restriction.MinPower
        ++ optRestriction r.max_power Restriction.MaxPower
        ++ optRestriction r.min_duration Restriction.MinDuration
        ++ optRestriction r.max_duration Restriction.MaxDuration
        ++ (if r.day_of_week = [] then []
            else [Restriction.DayOfWeek r.day_of_week])) := by
    unfold collect_restrictions
    rw [hs, he]
    simp [hlt]
  refine ⟨by rw [hcol]; rfl, ?_, ?_⟩
  · rw [hcol]
    simpa using collect_tail_not_time r
  · intro i
    constructor <;>
      simp [Restriction.instant_validity_exclusive, Restriction.instant_validity_inclusive]

/-- C6 witness: a concrete restriction with `start_time` 22:00 and `end_time`
06:00. -/
def wrapRestrictionEx : OcpiTariffRestriction :=
  { start_time := some 79200000000000
    end_time := some 21600000000000
    start_date := none, end_date := none
    min_kwh := none, max_kwh := none
    min_current := none, max_current := none
    min_power := none, max_power := none
    min_duration := none, max_duration := none
    day_of_week := [] }

theorem C6_wrapping_time_witness :
    (wrapRestrictionEx.start_time = some 79200000000000 ∧
     wrapRestrictionEx.end_time = some 21600000000000 ∧
     (21600000000000 : NaiveTime) < 79200000000000) ∧
    (((collect_restrictions wrapRestrictionEx).head? =
        some (Restriction.WrappingTime 79200000000000 21600000000000)) ∧
     (((collect_restrictions wrapRestrictionEx).tail.all
        fun x => ! Restriction.isTimeOfDay x) = true) ∧
     ∀ i : InstantData,
       (Restriction.instant_validity_exclusive
          (Restriction.WrappingTime 79200000000000 21600000000000) i = true ↔
         (79200000000000 ≤ InstantData.local_time i ∨
          InstantData.local_time i < 21600000000000)) ∧
       (Restriction.instant_validity_inclusive
          (Restriction.WrappingTime 79200000000000 21600000000000) i = true ↔
         (79200000000000 ≤ InstantData.local_time i ∨
          InstantData.local_time i < 21600000000000))) :=
  ⟨⟨rfl, rfl, by decide⟩, C6_wrapping_time wrapRestrictionEx _ _ rfl rfl (by decide)⟩

/-- C7: in inclusive-at-end evaluation, midnight boundaries are inclusive:
at a local-midnight instant whose previous weekday is in a `DayOfWeek` set,
the restriction holds; at local midnight of `end_date`, `EndDate` holds; and
at exactly `end_time`, `EndTime` holds. -/
theorem C7_inclusive_midnight_boundaries (i : InstantData) :
    (∀ days : List Weekday,
        InstantData.local_time i = 0 →
        days.contains (Weekday.pred (InstantData.local_weekday i)) = true →
        Restriction.instant_validity_inclusive (Restriction.DayOfWeek days) i = true) ∧
    (∀ d : NaiveDate,
        InstantData.local_time i = 0 →
        InstantData.local_date i = d →
        Restriction.instant_validity_inclusive (Restriction.EndDate d) i = true) ∧
    (∀ t : NaiveTime,
        InstantData.local_time i = t →
        Restriction.instant_validity_inclusive (Restriction.EndTime t) i = true) := by
  refine ⟨?_, ?_, ?_⟩ <;>
    · intros
      simp_all [Restriction.instant_validity_inclusive,
        NaiveTime.num_seconds_from_midnight]

/-- C7 witness: 1970-01-06 (a Tuesday) at 00:00 UTC satisfies
`DayOfWeek = [Monday]`, `EndDate = day 5` and `EndTime = 00:00`. -/
theorem C7_inclusive_midnight_witness :
    (InstantData.local_time ⟨utcTz, 432000000, 0, 0, 0⟩ = 0 ∧
     ([Weekday.Mon].contains
        (Weekday.pred (InstantData.local_weekday ⟨utcTz, 432000000, 0, 0, 0⟩)) = true) ∧
     InstantData.local_date ⟨utcTz, 432000000, 0, 0, 0⟩ = 5) ∧
    Restriction.instant_validity_inclusive
      (Restriction.DayOfWeek [Weekday.Mon]) ⟨utcTz, 432000000, 0, 0, 0⟩ = true ∧
    Restriction.instant_validity_inclusive
      (Restriction.EndDate 5) ⟨utcTz, 432000000, 0, 0, 0⟩ = true ∧
    Restriction.instant_validity_inclusive
      (Restriction.EndTime 0) ⟨utcTz, 432000000, 0, 0, 0⟩ = true :=
  ⟨⟨by decide, by decide, by decide⟩,
   (C7_inclusive_midnight_boundaries _).1 [Weekday.Mon] (by decide) (by decide),
   (C7_inclusive_midnight_boundaries _).2.1 5 (by decide) (by decide),
   (C7_inclusive_midnight_boundaries _).2.2 0 (by decide)⟩

lemma firstActiveGo_some (s : DateTime) :
    ∀ (ts : List OcpiTariff) (i j : ℕ) (tr : Tariff),
      firstActiveGo i s ts = some (j, tr) →
      ∃ k t, j = i + k ∧ ts.get? k = some t ∧ tr = Tariff.new t ∧
        Tariff.is_active tr s = true ∧
        ∀ m, m < k → ∀ u, ts.get? m = some u →
          Tariff.is_active (Tariff.new u) s = false := by
  intro ts
  induction ts with
  | nil => intro i j tr h; simp [firstActiveGo] at h
  | cons t rest ih =>
    intro i j tr h
    by_cases ha : Tariff.is_active (Tariff.new t) s = true
    · rw [firstActiveGo, if_pos ha] at h
      obtain ⟨rfl, rfl⟩ : i = j ∧ Tariff.new t = tr := by
        injection h with h1
        exact ⟨congrArg Prod.fst h1, congrArg Prod.snd h1⟩
      refine ⟨0, t, by omega, rfl, rfl, ha, ?_⟩
      intro m hm
      omega
    · rw [firstActiveGo, if_neg ha] at h
      obtain ⟨k, u, rfl, hget, rfl, hact, hbefore⟩ := ih (i + 1) j tr h
      refine ⟨k + 1, u, by omega, hget, rfl, hact, ?_⟩
      intro m hm v hv
      match m, hv with
      | 0, hv =>
        obtain rfl : t = v := by injection hv
        exact Bool.not_eq_true _ ▸ (by simpa using ha)
      | m + 1, hv => exact hbefore m (by omega) v hv

lemma firstActiveGo_none (s : DateTime) :
    ∀ (ts : List OcpiTariff) (i : ℕ),
      (∀ t ∈ ts, Tariff.is_active (Tariff.new t) s = false) →
      firstActiveGo i s ts = none := by
  intro ts
  induction ts with
  | nil => intro i _; rfl
  | cons t rest ih =>
    intro i hall
    rw [firstActiveGo, if_neg (by simp [hall t (by simp)])]
    exact ih (i + 1) fun u hu => hall u (by simp [hu])

/-- C3: `build_report` selects the first tariff in list order whose
`[start_date_time, end_date_time)` window contains the session start (an
absent bound being unbounded on that side); when no candidate tariff is
active — in particular when the candidate list is empty — it returns the
`NoValidTariff` error. -/
theorem C3_first_active_tariff_selection (p : Pricer) (tz : Tz)
    (htz : p.time_zone = some tz) :
    (∀ (t : OcpiTariff) (s : DateTime),
        Tariff.is_active (Tariff.new t) s = true ↔
          ((∀ b, t.start_date_time = some b → b ≤ s) ∧
           (∀ b, t.end_date_time = some b → s < b))) ∧
    (∀ (ts : List OcpiTariff) (s : DateTime) (i : ℕ) (tr : Tariff),
        first_active_tariff ts s = some (i, tr) →
        ∃ t, ts.get? i = some t ∧ tr = Tariff.new t ∧
          Tariff.is_active tr s = true ∧
          ∀ j, j < i → ∀ u, ts.get? j = some u →
            Tariff.is_active (Tariff.new u) s = false) ∧
    (((match p.tariffs with
       | some ts => ts
       | none => p.cdr.tariffs).all
        fun t => ! Tariff.is_active (Tariff.new t) p.cdr.start_date_time) = true →
      Pricer.build_report p = some (Except.error Error.NoValidTariff)) := by
  have hres : Pricer.resolve_time_zone p = Except.ok tz := by
    simp [Pricer.resolve_time_zone, htz]
  refine ⟨?_, ?_, ?_⟩
  · intro t s
    rw [show Tariff.is_active (Tariff.new t) s =
        ((match t.start_date_time with
          | some b => decide (b ≤ s)
          | none => true) &&
         (match t.end_date_time with
          | some b => decide (s < b)
          | none => true)) from rfl]
    cases t.start_date_time <;> cases t.end_date_time <;> simp
  · intro ts s i tr h
    obtain ⟨k, t, hk, hget, rfl, hact, hbefore⟩ := firstActiveGo_some s ts 0 i tr h
    have hki : k = i := by omega
    subst hki
    exact ⟨t, hget, rfl, hact, fun j hj u hu => hbefore j hj u hu⟩
  · intro hall
    have hsel : Pricer.select_tariff p p.cdr.start_date_time = none := by
      cases hT : p.tariffs with
      | some ts =>
        rw [hT] at hall
        simp only [List.all_eq_true, Bool.not_eq_true'] at hall
        simp only [Pricer.select_tariff, hT, first_active_tariff]
        exact firstActiveGo_none _ ts 0 hall
      | none =>
        rw [hT] at hall
        simp only [List.all_eq_true, Bool.not_eq_true'] at hall
        simp only [Pricer.select_tariff, hT, first_active_tariff]
        split
        · exact firstActiveGo_none _ _ 0 hall
        · rfl
    simp only [Pricer.build_report, hres, ChargeSession.new, hsel]

/-- C3 witness: a pricer with an explicit zone, no supplied tariffs and a CDR
without tariffs fails with `NoValidTariff`. -/
def emptyTariffCdr : Cdr :=
  { start_date_time := 0
    end_date_time := 3600000
    currency := "EUR"
    cdr_location := ⟨"NLD", none⟩
    tariffs := []
    charging_periods := [] }

def emptyTariffPricer : Pricer :=
  { cdr := emptyTariffCdr, tariffs := none, time_zone := some utcTz,
    detect_time_zone := false }

theorem C3_first_active_tariff_selection_witness :
    (emptyTariffPricer.time_zone = some utcTz ∧
     ((match emptyTariffPricer.tariffs with
       | some ts => ts
       | none => emptyTariffPricer.cdr.tariffs).all
        fun t => ! Tariff.is_active (Tariff.new t)
          emptyTariffPricer.cdr.start_date_time) = true) ∧
    Pricer.build_report emptyTariffPricer = some (Except.error Error.NoValidTariff) :=
  ⟨⟨rfl, rfl⟩,
   (C3_first_active_tariff_selection emptyTariffPricer utcTz rfl).2.2 rfl⟩

lemma dimension_cost_incl_none_iff {V : Type} [Dimension V] (d : DimensionReport V) :
    (∃ c, DimensionReport.cost d = some c ∧ c.incl_vat = none) ↔
      (∃ pc, d.price = some pc ∧ d.billed_volume.isSome = true ∧
        pc.vat = CompatibilityVat.Unknown) := by
  cases hb : d.billed_volume with
  | none => simp [DimensionReport.cost, hb]
  | some v =>
    cases hp : d.price with
    | none => simp [DimensionReport.cost, hb, hp]
    | some pc =>
      cases hv : pc.vat with
      | Unknown => simp [DimensionReport.cost, hb, hp, hv]
      | Vat ov => cases ov <;> simp [DimensionReport.cost, hb, hp, hv]

lemma accumulate_cost_incl_none (acc c : Option Price) :
    (∃ a, accumulate_cost acc c = some a ∧ a.incl_vat = none) ↔
      ((∃ a, acc = some a ∧ a.incl_vat = none) ∨
       (∃ q, c = some q ∧ q.incl_vat = none)) := by
  cases acc with
  | none =>
    cases c with
    | none => simp [accumulate_cost]
    | some q =>
      cases hq : q.incl_vat <;>
        simp [accumulate_cost, Price.saturating_add, Price.zero, hq]
  | some a =>
    cases c with
    | none =>
      cases ha : a.incl_vat <;>
        simp [accumulate_cost, Price.saturating_add, Price.zero, ha]
    | some q =>
      cases ha : a.incl_vat <;> cases hq : q.incl_vat <;>
        simp [accumulate_cost, Price.saturating_add, ha, hq]

lemma foldCost_incl_none {V : Type} [Dimension V] :
    ∀ (ds : List (DimensionReport V)) (acc : Option Price) (pr : Price),
      ds.foldl (fun a d => accumulate_cost a (DimensionReport.cost d)) acc = some pr →
      (pr.incl_vat = none ↔
        ((∃ a, acc = some a ∧ a.incl_vat = none) ∨
         ∃ d ∈ ds, ∃ c, DimensionReport.cost d = some c ∧ c.incl_vat = none)) := by
  intro ds
  induction ds with
  | nil =>
    intro acc pr h
    simp only [List.foldl_nil] at h
    simp [h]
  | cons d rest ih =>
    intro acc pr h
    simp only [List.foldl_cons] at h
    rw [ih (accumulate_cost acc (DimensionReport.cost d)) pr h]
    rw [accumulate_cost_incl_none acc (DimensionReport.cost d)]
    constructor
    · rintro ((h1 | h1) | ⟨u, hu, hc⟩)
      · exact Or.inl h1
      · exact Or.inr ⟨d, by simp, h1⟩
      · exact Or.inr ⟨u, by simp [hu], hc⟩
    · rintro (h1 | ⟨u, hu, hc⟩)
      · exact Or.inl (Or.inl h1)
      · rcases List.mem_cons.mp hu with rfl | hu
        · exact Or.inl (Or.inr hc)
        · exact Or.inr ⟨u, hu, hc⟩

/-- C4: a period dimension with an active price component and a billed volume
has a cost whose `incl_vat` is `none` iff the component VAT is `Unknown`,
equals `excl_vat` when the VAT is explicitly absent, and equals
`excl_vat × (1 + p / 100)` when the VAT is `p`; and an aggregate cost total
(the `accumulate_cost` fold of `build_report`) has `incl_vat = none` iff at
least one contributing period cost had VAT `Unknown`. -/
theorem C4_vat_semantics :
    (∀ (V : Type) [Dimension V] (d : DimensionReport V) (v : V) (pc : PriceComponent),
        d.billed_volume = some v → d.price = some pc →
        ∃ pr, DimensionReport.cost d = some pr ∧
          pr.excl_vat = Dimension.cost v pc.price ∧
          (pc.vat = CompatibilityVat.Unknown → pr.incl_vat = none) ∧
          (pc.vat = CompatibilityVat.Vat none → pr.incl_vat = some pr.excl_vat) ∧
          (∀ q, pc.vat = CompatibilityVat.Vat (some q) →
            pr.incl_vat = some (Money.apply_vat pr.excl_vat q)) ∧
          (pr.incl_vat = none ↔ pc.vat = CompatibilityVat.Unknown)) ∧
    (∀ (V : Type) [Dimension V] (ds : List (DimensionReport V)) (pr : Price),
        ds.foldl (fun a d => accumulate_cost a (DimensionReport.cost d)) none = some pr →
        (pr.incl_vat = none ↔
          ∃ d ∈ ds, ∃ pc, d.price = some pc ∧ d.billed_volume.isSome = true ∧
            pc.vat = CompatibilityVat.Unknown)) := by
  constructor
  · intro V _ d v pc hb hp
    refine ⟨_, by rw [DimensionReport.cost, hb, hp], rfl, ?_, ?_, ?_, ?_⟩
    · intro hv; simp [hv]
    · intro hv; simp [hv]
    · intro q hv; simp [hv]
    · cases hv : pc.vat with
      | Unknown => simp [hv]
      | Vat ov => cases ov <;> simp [hv]
  · intro V _ ds pr h
    rw [foldCost_incl_none ds none pr h]
    simp only [dimension_cost_incl_none_iff]
    simp

/-- C4 witness: one energy dimension report, price 3 per kWh, 2 kWh billed,
VAT unknown. -/
def c4pc : PriceComponent := ⟨0, 3, CompatibilityVat.Unknown, 0⟩

def c4dim : DimensionReport Kwh := ⟨some c4pc, some 2, some 2⟩

theorem C4_vat_semantics_witness :
    (c4dim.billed_volume = some 2 ∧ c4dim.price = some c4pc ∧
     ([c4dim].foldl (fun a d => accumulate_cost a (DimensionReport.cost d)) none =
       some ⟨6, none⟩)) ∧
    (∃ pr, DimensionReport.cost c4dim = some pr ∧
      pr.excl_vat = Dimension.cost (2 : Kwh) c4pc.price ∧
      (c4pc.vat = CompatibilityVat.Unknown → pr.incl_vat = none) ∧
      (c4pc.vat = CompatibilityVat.Vat none → pr.incl_vat = some pr.excl_vat) ∧
      (∀ q, c4pc.vat = CompatibilityVat.Vat (some q) →
        pr.incl_vat = some (Money.apply_vat pr.excl_vat q)) ∧
      (pr.incl_vat = none ↔ c4pc.vat = CompatibilityVat.Unknown)) ∧
    ((⟨6, none⟩ : Price).incl_vat = none ↔
      ∃ d ∈ [c4dim], ∃ pc, d.price = some pc ∧ d.billed_volume.isSome = true ∧
        pc.vat = CompatibilityVat.Unknown) := by
  have hfold : [c4dim].foldl (fun a d => accumulate_cost a (DimensionReport.cost d)) none =
      some ⟨6, none⟩ := by
    simp only [List.foldl_cons, List.foldl_nil, accumulate_cost, DimensionReport.cost,
      c4dim, c4pc, Price.saturating_add, Price.zero, instDimensionKwh, Dimension.cost,
      Money.kwh_cost, Option.getD]
    norm_num
  exact ⟨⟨rfl, rfl, hfold⟩,
    C4_vat_semantics.1 Kwh c4dim 2 c4pc rfl rfl,
    C4_vat_semantics.2 Kwh [c4dim] ⟨6, none⟩ hfold⟩


lemma hd_satAdd_le_max (a b : HoursDecimal) :
    HoursDecimal.saturating_add a b ≤ i64Max := by
  unfold HoursDecimal.saturating_add
  split
  · rename_i h
    exact h.2
  · exact le_rfl

lemma hd_satAdd_ge_left (a b : HoursDecimal) (hb : 0 ≤ b) (ha : a ≤ i64Max) :
    a ≤ HoursDecimal.saturating_add a b := by
  unfold HoursDecimal.saturating_add
  split
  · rename_i h
    linarith
  · exact ha

/-- Nonnegativity of the charging-time and energy volumes of a CDR dimension. -/
def dimNonneg : OcpiCdrDimension → Bool
  | .Time v => decide (0 ≤ v)
  | .Energy v => decide ((0 : ℚ) ≤ v)
  | _ => true

lemma periodData_foldl_nonneg :
    ∀ (dims : List OcpiCdrDimension) (acc : PeriodData),
      (dims.all dimNonneg = true) →
      ((∀ d, acc.charging_duration = some d → 0 ≤ d) ∧
       (∀ v, acc.energy = some v → (0 : ℚ) ≤ v)) →
      ((∀ d, (dims.foldl PeriodData.applyDimension acc).charging_duration = some d → 0 ≤ d) ∧
       (∀ v, (dims.foldl PeriodData.applyDimension acc).energy = some v → (0 : ℚ) ≤ v)) := by
  intro dims
  induction dims with
  | nil =>
    intro acc _ h
    simpa using h
  | cons d rest ih =>
    intro acc hall hacc
    simp only [List.all_cons, Bool.and_eq_true] at hall
    have hdn := hall.1
    refine ih _ hall.2 ?_
    cases d with
    | Time v =>
      refine ⟨?_, fun v' hv' => hacc.2 v' hv'⟩
      intro d' hd'
      simp only [PeriodData.applyDimension] at hd'
      cases hd'
      simpa [dimNonneg] using hdn
    | Energy v =>
      refine ⟨fun d' hd' => hacc.1 d' hd', ?_⟩
      intro v' hv'
      simp only [PeriodData.applyDimension] at hv'
      cases hv'
      simpa [dimNonneg] using hdn
    | MinCurrent v => exact ⟨fun d' hd' => hacc.1 d' hd', fun v' hv' => hacc.2 v' hv'⟩
    | MaxCurrent v => exact ⟨fun d' hd' => hacc.1 d' hd', fun v' hv' => hacc.2 v' hv'⟩
    | MinPower v => exact ⟨fun d' hd' => hacc.1 d' hd', fun v' hv' => hacc.2 v' hv'⟩
    | MaxPower v => exact ⟨fun d' hd' => hacc.1 d' hd', fun v' hv' => hacc.2 v' hv'⟩
    | ParkingTime v => exact ⟨fun d' hd' => hacc.1 d' hd', fun v' hv' => hacc.2 v' hv'⟩
    | ReservationTime v => exact ⟨fun d' hd' => hacc.1 d' hd', fun v' hv' => hacc.2 v' hv'⟩

lemma periodData_new_nonneg (p : OcpiChargingPeriod)
    (h : p.dimensions.all dimNonneg = true) :
    (∀ d, (PeriodData.new p).charging_duration = some d → 0 ≤ d) ∧
    (∀ v, (PeriodData.new p).energy = some v → (0 : ℚ) ≤ v) := by
  unfold PeriodData.new
  exact periodData_foldl_nonneg p.dimensions PeriodData.empty h
    (by simp [PeriodData.empty])

lemma instant_next_good (s : InstantData) (state : PeriodData) (dt : DateTime)
    (hdt : s.date_time ≤ dt)
    (hd : ∀ d, state.charging_duration = some d → 0 ≤ d)
    (he : ∀ v, state.energy = some v → (0 : ℚ) ≤ v)
    (hb1 : s.total_duration ≤ i64Max)
    (hb2 : s.total_charging_duration ≤ i64Max) :
    s.date_time ≤ (InstantData.next s state dt).date_time ∧
    s.total_duration ≤ (InstantData.next s state dt).total_duration ∧
    s.total_charging_duration ≤ (InstantData.next s state dt).total_charging_duration ∧
    s.total_energy ≤ (InstantData.next s state dt).total_energy ∧
    (InstantData.next s state dt).total_duration ≤ i64Max ∧
    (InstantData.next s state dt).total_charging_duration ≤ i64Max ∧
    (InstantData.next s state dt).date_time = dt := by
  have e1 : (InstantData.next s state dt).date_time = dt := rfl
  have e2 : (InstantData.next s state dt).total_duration =
      HoursDecimal.saturating_add s.total_duration (dt - s.date_time) := rfl
  have e3 : (InstantData.next s state dt).total_charging_duration =
      (match state.charging_duration with
       | some d => HoursDecimal.saturating_add s.total_charging_duration d
       | none => s.total_charging_duration) := rfl
  have e4 : (InstantData.next s state dt).total_energy =
      (match state.energy with
       | some en => Kwh.saturating_add s.total_energy en
       | none => s.total_energy) := rfl
  refine ⟨e1 ▸ hdt, ?_, ?_, ?_, ?_, ?_, e1⟩
  · rw [e2]
    exact hd_satAdd_ge_left _ _ (by linarith) hb1
  · rw [e3]
    cases hcd : state.charging_duration with
    | none => exact le_rfl
    | some d => exact hd_satAdd_ge_left _ _ (hd d hcd) hb2
  · rw [e4]
    cases hce : state.energy with
    | none => exact le_rfl
    | some v =>
      have := he v hce
      show s.total_energy ≤ Kwh.saturating_add s.total_energy v
      unfold Kwh.saturating_add
      linarith
  · rw [e2]
    exact hd_satAdd_le_max _ _
  · rw [e3]
    cases hcd : state.charging_duration with
    | none => exact hb2
    | some d => exact hd_satAdd_le_max s.total_charging_duration d

/-- Monotonicity of the input period start times, each bounded by the next
start (or by the session end, for the last period). -/
def startsChained (session_end : DateTime) : List OcpiChargingPeriod → Bool
  | [] => true
  | p :: rest =>
    (match rest.head? with
     | some nxt => decide (p.start_date_time ≤ nxt.start_date_time)
     | none => decide (p.start_date_time ≤ session_end)) && startsChained session_end rest

lemma chargeSessionGo_good (tz : Tz) (session_end : DateTime) :
    ∀ (ps : List OcpiChargingPeriod) (prev : Option ChargePeriod),
      startsChained session_end ps = true →
      (ps.all fun p => p.dimensions.all dimNonneg) = true →
      (∀ last, prev = some last →
        (∀ hd, ps.head? = some hd → last.end_instant.date_time = hd.start_date_time) ∧
        last.end_instant.total_duration ≤ i64Max ∧
        last.end_instant.total_charging_duration ≤ i64Max) →
      ∀ cp ∈ chargeSessionGo tz session_end prev ps,
        cp.start_instant.date_time ≤ cp.end_instant.date_time ∧
        cp.start_instant.total_duration ≤ cp.end_instant.total_duration ∧
        cp.start_instant.total_charging_duration ≤ cp.end_instant.total_charging_duration ∧
        cp.start_instant.total_energy ≤ cp.end_instant.total_energy := by
  intro ps
  induction ps with
  | nil =>
    intro prev _ _ _ cp hcp
    simp [chargeSessionGo] at hcp
  | cons p rest ih =>
    intro prev hchain hnn hprev
    simp only [List.all_cons, Bool.and_eq_true] at hnn
    rw [startsChained, Bool.and_eq_true] at hchain
    obtain ⟨hnn1, hnn2⟩ := periodData_new_nonneg p hnn.1
    set e : DateTime :=
      (match rest.head? with
       | some nxt => nxt.start_date_time
       | none => session_end) with he
    have hpe : p.start_date_time ≤ e := by
      rcases hr : rest.head? with _ | nxt <;>
        · rw [hr] at he
          have h1 := hchain.1
          rw [hr] at h1
          simp only [decide_eq_true_eq] at h1
          rw [he]
          exact h1
    have main : ∀ (start : InstantData),
        start.date_time = p.start_date_time →
        start.total_duration ≤ i64Max →
        start.total_charging_duration ≤ i64Max →
        ∀ cp ∈ ((⟨PeriodData.new p, start,
              InstantData.next start (PeriodData.new p) e⟩ : ChargePeriod) ::
            chargeSessionGo tz session_end
              (some ⟨PeriodData.new p, start, InstantData.next start (PeriodData.new p) e⟩)
              rest),
          cp.start_instant.date_time ≤ cp.end_instant.date_time ∧
          cp.start_instant.total_duration ≤ cp.end_instant.total_duration ∧
          cp.start_instant.total_charging_duration ≤ cp.end_instant.total_charging_duration ∧
          cp.start_instant.total_energy ≤ cp.end_instant.total_energy := by
      intro start hsd hsb1 hsb2 cp hcp
      have hgood := instant_next_good start (PeriodData.new p) e
        (by rw [hsd]; exact hpe) hnn1 hnn2 hsb1 hsb2
      rcases List.mem_cons.mp hcp with rfl | hmem
      · exact ⟨hgood.1, hgood.2.1, hgood.2.2.1, hgood.2.2.2.1⟩
      · refine ih _ hchain.2 hnn.2 ?_ cp hmem
        intro last hlast
        injection hlast with hlast2
        subst hlast2
        refine ⟨?_, hgood.2.2.2.2.1, hgood.2.2.2.2.2.1⟩
        intro hd hhd
        show (InstantData.next start (PeriodData.new p) e).date_time = hd.start_date_time
        rw [hgood.2.2.2.2.2.2]
        rw [hhd] at he
        exact he
    cases prev with
    | none =>
      have hunfold : chargeSessionGo tz session_end none (p :: rest) =
          (⟨PeriodData.new p, InstantData.zero p.start_date_time tz,
              InstantData.next (InstantData.zero p.start_date_time tz)
                (PeriodData.new p) e⟩ : ChargePeriod) ::
            chargeSessionGo tz session_end
              (some ⟨PeriodData.new p, InstantData.zero p.start_date_time tz,
                InstantData.next (InstantData.zero p.start_date_time tz)
                  (PeriodData.new p) e⟩) rest := rfl
      rw [hunfold]
      exact main (InstantData.zero p.start_date_time tz) rfl
        (by norm_num [InstantData.zero, i64Max])
        (by norm_num [InstantData.zero, i64Max])
    | some last =>
      obtain ⟨hdate, hlb1, hlb2⟩ := hprev last rfl
      have hunfold : chargeSessionGo tz session_end (some last) (p :: rest) =
          (⟨PeriodData.new p, last.end_instant,
              InstantData.next last.end_instant (PeriodData.new p) e⟩ : ChargePeriod) ::
            chargeSessionGo tz session_end
              (some ⟨PeriodData.new p, last.end_instant,
                InstantData.next last.end_instant (PeriodData.new p) e⟩) rest := rfl
      rw [hunfold]
      exact main last.end_instant (hdate p rfl) hlb1 hlb2

lemma instant_next_dt_good (s : InstantData) (state : PeriodData) (dt : DateTime)
    (hdt : s.date_time ≤ dt) (hb1 : s.total_duration ≤ i64Max) :
    s.date_time ≤ (InstantData.next s state dt).date_time ∧
    s.total_duration ≤ (InstantData.next s state dt).total_duration ∧
    (InstantData.next s state dt).total_duration ≤ i64Max ∧
    (InstantData.next s state dt).date_time = dt := by
  have e1 : (InstantData.next s state dt).date_time = dt := rfl
  have e2 : (InstantData.next s state dt).total_duration =
      HoursDecimal.saturating_add s.total_duration (dt - s.date_time) := rfl
  refine ⟨e1 ▸ hdt, ?_, ?_, e1⟩
  · rw [e2]
    exact hd_satAdd_ge_left _ _ (by linarith) hb1
  · rw [e2]
    exact hd_satAdd_le_max _ _

lemma chargeSessionGo_dt_good (tz : Tz) (session_end : DateTime) :
    ∀ (ps : List OcpiChargingPeriod) (prev : Option ChargePeriod),
      startsChained session_end ps = true →
      (∀ last, prev = some last →
        (∀ hd, ps.head? = some hd → last.end_instant.date_time = hd.start_date_time) ∧
        last.end_instant.total_duration ≤ i64Max) →
      ∀ cp ∈ chargeSessionGo tz session_end prev ps,
        cp.start_instant.date_time ≤ cp.end_instant.date_time ∧
        cp.start_instant.total_duration ≤ cp.end_instant.total_duration := by
  intro ps
  induction ps with
  | nil =>
    intro prev _ _ cp hcp
    simp [chargeSessionGo] at hcp
  | cons p rest ih =>
    intro prev hchain hprev
    rw [startsChained, Bool.and_eq_true] at hchain
    set e : DateTime :=
      (match rest.head? with
       | some nxt => nxt.start_date_time
       | none => session_end) with he
    have hpe : p.start_date_time ≤ e := by
      rcases hr : rest.head? with _ | nxt <;>
        · rw [hr] at he
          have h1 := hchain.1
          rw [hr] at h1
          simp only [decide_eq_true_eq] at h1
          rw [he]
          exact h1
    have main : ∀ (start : InstantData),
        start.date_time = p.start_date_time →
        start.total_duration ≤ i64Max →
        ∀ cp ∈ ((⟨PeriodData.new p, start,
              InstantData.next start (PeriodData.new p) e⟩ : ChargePeriod) ::
            chargeSessionGo tz session_end
              (some ⟨PeriodData.new p, start, InstantData.next start (PeriodData.new p) e⟩)
              rest),
          cp.start_instant.date_time ≤ cp.end_instant.date_time ∧
          cp.start_instant.total_duration ≤ cp.end_instant.total_duration := by
      intro start hsd hsb1 cp hcp
      have hgood := instant_next_dt_good start (PeriodData.new p) e
        (by rw [hsd]; exact hpe) hsb1
      rcases List.mem_cons.mp hcp with rfl | hmem
      · exact ⟨hgood.1, hgood.2.1⟩
      · refine ih _ hchain.2 ?_ cp hmem
        intro last hlast
        injection hlast with hlast2
        subst hlast2
        refine ⟨?_, hgood.2.2.1⟩
        intro hd hhd
        show (InstantData.next start (PeriodData.new p) e).date_time = hd.start_date_time
        rw [hgood.2.2.2]
        rw [hhd] at he
        exact he
    cases prev with
    | none =>
      have hunfold : chargeSessionGo tz session_end none (p :: rest) =
          (⟨PeriodData.new p, InstantData.zero p.start_date_time tz,
              InstantData.next (InstantData.zero p.start_date_time tz)
                (PeriodData.new p) e⟩ : ChargePeriod) ::
            chargeSessionGo tz session_end
              (some ⟨PeriodData.new p, InstantData.zero p.start_date_time tz,
                InstantData.next (InstantData.zero p.start_date_time tz)
                  (PeriodData.new p) e⟩) rest := rfl
      rw [hunfold]
      exact main (InstantData.zero p.start_date_time tz) rfl
        (by norm_num [InstantData.zero, i64Max])
    | some last =>
      obtain ⟨hdate, hlb1⟩ := hprev last rfl
      have hunfold : chargeSessionGo tz session_end (some last) (p :: rest) =
          (⟨PeriodData.new p, last.end_instant,
              InstantData.next last.end_instant (PeriodData.new p) e⟩ : ChargePeriod) ::
            chargeSessionGo tz session_end
              (some ⟨PeriodData.new p, last.end_instant,
                InstantData.next last.end_instant (PeriodData.new p) e⟩) rest := rfl
      rw [hunfold]
      exact main last.end_instant (hdate p rfl) hlb1

/-- C8 counterexample input: the second charging period starts before the
first. -/
def outOfOrderCdr : Cdr :=
  { start_date_time := 0
    end_date_time := 200
    currency := "EUR"
    cdr_location := ⟨"NLD", none⟩
    tariffs := []
    charging_periods := [⟨100, []⟩, ⟨50, []⟩] }

/-- C8 counterexample: `ChargeSession::new` does not validate the ordering of
the input periods; with period starts 100, 50 and session end 200 the first
period gets `end_instant.date_time = 50 < 100 = start_instant.date_time` and
`end_instant.total_duration = −50 < 0 = start_instant.total_duration`, so the
claimed invariant fails for this session. -/
theorem C8_session_monotone_counterexample :
    (((ChargeSession.new outOfOrderCdr utcTz).periods.map fun cp =>
        (cp.start_instant.date_time, cp.end_instant.date_time,
         cp.start_instant.total_duration, cp.end_instant.total_duration)) =
      [(100, 50, 0, -50), (50, 200, -50, 100)]) ∧
    ¬ ∀ cp ∈ (ChargeSession.new outOfOrderCdr utcTz).periods,
        cp.start_instant.date_time ≤ cp.end_instant.date_time ∧
        cp.start_instant.total_duration ≤ cp.end_instant.total_duration ∧
        cp.start_instant.total_charging_duration ≤ cp.end_instant.total_charging_duration ∧
        cp.start_instant.total_energy ≤ cp.end_instant.total_energy := by
  constructor
  · decide
  · intro hall
    have h0 : (⟨100, 50, 0, -50⟩ : Int × Int × Int × Int) ∈
        ((ChargeSession.new outOfOrderCdr utcTz).periods.map fun cp =>
          (cp.start_instant.date_time, cp.end_instant.date_time,
           cp.start_instant.total_duration, cp.end_instant.total_duration)) := by decide
    obtain ⟨cp, hcp, heq⟩ := List.mem_map.mp h0
    have := (hall cp hcp).1
    rw [show cp.start_instant.date_time = 100 from congrArg (fun x => x.1) heq,
        show cp.end_instant.date_time = 50 from congrArg (fun x => x.2.1) heq] at this
    exact absurd this (by decide)

/-- C8 amended: for a CDR whose charging-period start times are nondecreasing
and bounded by the session end, every constructed period has
`end_instant.date_time ≥ start_instant.date_time` and a nondecreasing
`total_duration`; when additionally every `Time` and `Energy` dimension volume
is nonnegative, `total_charging_duration` and `total_energy` are nondecreasing
as well. -/
theorem C8_session_monotone_amended (cdr : Cdr) (tz : Tz)
    (hchain : startsChained cdr.end_date_time cdr.charging_periods = true) :
    (∀ cp ∈ (ChargeSession.new cdr tz).periods,
      cp.start_instant.date_time ≤ cp.end_instant.date_time ∧
      cp.start_instant.total_duration ≤ cp.end_instant.total_duration) ∧
    ((cdr.charging_periods.all fun p => p.dimensions.all dimNonneg) = true →
      ∀ cp ∈ (ChargeSession.new cdr tz).periods,
        cp.start_instant.total_charging_duration ≤
          cp.end_instant.total_charging_duration ∧
        cp.start_instant.total_energy ≤ cp.end_instant.total_energy) := by
  constructor
  · have := chargeSessionGo_dt_good tz cdr.end_date_time cdr.charging_periods none hchain
      (by intro last h; cases h)
    exact this
  · intro hnn cp hcp
    have := chargeSessionGo_good tz cdr.end_date_time cdr.charging_periods none hchain hnn
      (by intro last h; cases h) cp hcp
    exact ⟨this.2.2.1, this.2.2.2⟩

/-- C8 amended witness: an ordered two-period session with a nonnegative
charging-time volume. -/
def orderedCdr : Cdr :=
  { start_date_time := 0
    end_date_time := 7200000
    currency := "EUR"
    cdr_location := ⟨"NLD", none⟩
    tariffs := []
    charging_periods := [⟨0, [OcpiCdrDimension.Time 1800000]⟩, ⟨3600000, []⟩] }

theorem C8_session_monotone_amended_witness :
    (startsChained orderedCdr.end_date_time orderedCdr.charging_periods = true ∧
     (orderedCdr.charging_periods.all fun p => p.dimensions.all dimNonneg) = true) ∧
    (∀ cp ∈ (ChargeSession.new orderedCdr utcTz).periods,
      cp.start_instant.date_time ≤ cp.end_instant.date_time ∧
      cp.start_instant.total_duration ≤ cp.end_instant.total_duration) ∧
    (∀ cp ∈ (ChargeSession.new orderedCdr utcTz).periods,
      cp.start_instant.total_charging_duration ≤
        cp.end_instant.total_charging_duration ∧
      cp.start_instant.total_energy ≤ cp.end_instant.total_energy) :=
  ⟨⟨by decide, by decide⟩,
   (C8_session_monotone_amended orderedCdr utcTz (by decide)).1,
   (C8_session_monotone_amended orderedCdr utcTz (by decide)).2 (by decide)⟩

lemma ratTrunc_intCast (n : ℤ) : ratTrunc ((n : ℤ) : ℚ) = n := by
  unfold ratTrunc
  split
  · exact Int.floor_intCast n
  · exact Int.ceil_intCast n

lemma from_seconds_ceil (total : HoursDecimal) (k : ℕ) :
    HoursDecimal.from_seconds_number
        (Number.saturating_mul
          (Number.ceil (HoursDecimal.as_num_seconds_number total / (k : ℚ))) (k : ℚ)) =
      (if -i64Max ≤ ⌈(total : ℚ) / 1000 / (k : ℚ)⌉ * k * 1000 ∧
          ⌈(total : ℚ) / 1000 / (k : ℚ)⌉ * k * 1000 ≤ i64Max
       then Except.ok (⌈(total : ℚ) / 1000 / (k : ℚ)⌉ * k * 1000)
       else Except.error Error.NumericOverflow) := by
  unfold HoursDecimal.from_seconds_number
  have harg : Number.saturating_mul
      (Number.saturating_mul
        (Number.ceil (HoursDecimal.as_num_seconds_number total / (k : ℚ))) (k : ℚ)) 1000 =
      ((⌈(total : ℚ) / 1000 / (k : ℚ)⌉ * k * 1000 : ℤ) : ℚ) := by
    unfold Number.saturating_mul Number.ceil HoursDecimal.as_num_seconds_number
    push_cast
    ring
  rw [harg, ratTrunc_intCast]

lemma ceil_mul_ge (x : ℚ) (c : ℚ) (hc : 0 ≤ c) : x * c ≤ (⌈x⌉ : ℚ) * c :=
  mul_le_mul_of_nonneg_right (Int.le_ceil x) hc

lemma ceil_mul_lt (x : ℚ) (c : ℚ) (hc : 0 < c) : (⌈x⌉ : ℚ) * c < (x + 1) * c :=
  mul_lt_mul_of_pos_right (Int.ceil_lt_add_one x) hc

lemma duration_step_size_spec (total v : HoursDecimal) (k : ℕ) (S' v' : HoursDecimal)
    (h : StepSize.duration_step_size total v k = Except.ok (S', v')) :
    (k = 0 → S' = total ∧ v' = v) ∧
    (0 < k →
      S' = ⌈(total : ℚ) / 1000 / (k : ℚ)⌉ * k * 1000 ∧
      v' = HoursDecimal.saturating_add v (HoursDecimal.saturating_sub S' total) ∧
      total ≤ S' ∧
      ((S' : ℚ) - (total : ℚ)) < 1000 * k ∧
      HoursDecimal.as_num_seconds_number S' =
        Number.ceil (HoursDecimal.as_num_seconds_number total / (k : ℚ)) * (k : ℚ)) := by
  constructor
  · rintro rfl
    unfold StepSize.duration_step_size at h
    rw [if_neg (by omega)] at h
    injection h with h2
    exact ⟨(congrArg Prod.fst h2).symm, (congrArg Prod.snd h2).symm⟩
  · intro hk
    simp only [StepSize.duration_step_size, gt_iff_lt, hk, if_true, from_seconds_ceil] at h
    set N : ℤ := ⌈(total : ℚ) / 1000 / (k : ℚ)⌉ * k * 1000 with hN
    by_cases hrange : -i64Max ≤ N ∧ N ≤ i64Max
    · rw [if_pos hrange] at h
      have h' : Except.ok ((N : HoursDecimal),
          HoursDecimal.saturating_add v (HoursDecimal.saturating_sub N total)) =
          Except.ok (S', v') := h
      injection h' with h2
      obtain ⟨rfl, rfl⟩ : N = S' ∧
          HoursDecimal.saturating_add v (HoursDecimal.saturating_sub N total) = v' :=
        ⟨congrArg Prod.fst h2, congrArg Prod.snd h2⟩
      have hkq : (0 : ℚ) < (k : ℚ) := by exact_mod_cast hk
      have hbase : ((total : ℚ) / 1000 / (k : ℚ)) * (1000 * k) = (total : ℚ) := by
        field_simp
      have hcast : ((N : ℤ) : ℚ) =
          (⌈(total : ℚ) / 1000 / (k : ℚ)⌉ : ℚ) * (1000 * k) := by
        rw [hN]
        push_cast
        ring
      refine ⟨rfl, rfl, ?_, ?_, ?_⟩
      · have := ceil_mul_ge ((total : ℚ) / 1000 / (k : ℚ)) (1000 * k) (by positivity)
        rw [hbase] at this
        rw [← hcast] at this
        exact_mod_cast this
      · have := ceil_mul_lt ((total : ℚ) / 1000 / (k : ℚ)) (1000 * k) (by positivity)
        rw [add_mul, one_mul, hbase] at this
        rw [← hcast] at this
        linarith
      · show ((N : ℤ) : ℚ) / 1000 = _
        rw [hcast]
        show _ = (⌈(total : ℚ) / 1000 / (k : ℚ)⌉ : ℚ) * (k : ℚ)
        field_simp
        ring
    · rw [if_neg hrange] at h
      exact absurd h (by simp)

lemma energy_billed_spec (total : Kwh) (k : ℕ) (hk : 0 < k) :
    total ≤ Kwh.from_watt_hours
        (Number.saturating_mul
          (Number.ceil (Kwh.watt_hours total / (k : ℚ))) (k : ℚ)) ∧
    Kwh.from_watt_hours
        (Number.saturating_mul
          (Number.ceil (Kwh.watt_hours total / (k : ℚ))) (k : ℚ)) - total <
      (k : ℚ) / 1000 ∧
    Kwh.watt_hours
        (Kwh.from_watt_hours
          (Number.saturating_mul
            (Number.ceil (Kwh.watt_hours total / (k : ℚ))) (k : ℚ))) =
      Number.ceil (Kwh.watt_hours total / (k : ℚ)) * (k : ℚ) := by
  have hkq : (0 : ℚ) < (k : ℚ) := by exact_mod_cast hk
  unfold Kwh.from_watt_hours Kwh.watt_hours Number.saturating_mul Number.ceil
  set x : ℚ := total * 1000 / (k : ℚ) with hx
  have hbase : x * (k : ℚ) = total * 1000 := by
    rw [hx]
    field_simp
  have h1 : total * 1000 ≤ (⌈x⌉ : ℚ) * k := by
    have := ceil_mul_ge x (k : ℚ) (le_of_lt hkq)
    rw [hbase] at this
    exact this
  have h2 : (⌈x⌉ : ℚ) * k < total * 1000 + k := by
    have := ceil_mul_lt x (k : ℚ) hkq
    rw [add_mul, one_mul, hbase] at this
    linarith
  refine ⟨by linarith, by linarith, by field_simp⟩

/-- The invariant maintained by the period loop of `build_report`: the index
counts the periods; billed volumes still equal raw volumes; each step-size
anchor points at a period that carried a volume for its dimension. -/
def loopInv (st : LoopState) : Prop :=
  st.index = st.periods.length ∧
  (∀ pr ∈ st.periods,
     pr.dimensions.time.billed_volume = pr.dimensions.time.volume ∧
     pr.dimensions.energy.billed_volume = pr.dimensions.energy.volume ∧
     pr.dimensions.parking_time.billed_volume = pr.dimensions.parking_time.volume) ∧
  (∀ i pc, st.step_size.time = some (i, pc) →
     ∃ pr v, st.periods.get? i = some pr ∧ pr.dimensions.time.volume = some v) ∧
  (∀ i pc, st.step_size.energy = some (i, pc) →
     ∃ pr v, st.periods.get? i = some pr ∧ pr.dimensions.energy.volume = some v) ∧
  (∀ i pc, st.step_size.parking_time = some (i, pc) →
     ∃ pr v, st.periods.get? i = some pr ∧ pr.dimensions.parking_time.volume = some v)

lemma loopInv_init : loopInv LoopState.init := by
  refine ⟨rfl, ?_, ?_, ?_, ?_⟩ <;> simp [LoopState.init, StepSize.new]

lemma get?_append_left {α : Type} (l l' : List α) (i : ℕ) (a : α)
    (h : l.get? i = some a) : (l ++ l').get? i = some a := by
  rw [List.get?_append (List.get?_eq_some.mp h).1]
  exact h


lemma processPeriod_fields (tariff : Tariff) (st st2 : LoopState) (period : ChargePeriod)
    (components0 : PriceComponents)
    (hac : Tariff.active_components tariff period = some components0)
    (h : processPeriod tariff st period = some st2) :
    st2.index = st.index + 1 ∧
    st2.periods = st.periods ++
      [PeriodReport.new period
        (Dimensions.new (dropFlat components0 st.has_flat_fee).1 period.period_data)] ∧
    st2.step_size = StepSize.update st.step_size st.index
      (dropFlat components0 st.has_flat_fee).1 period ∧
    st2.has_flat_fee = (dropFlat components0 st.has_flat_fee).2 ∧
    st2.total_energy = Kwh.saturating_add st.total_energy
      (period.period_data.energy.getD Kwh.zero) ∧
    st2.total_charging_time = HoursDecimal.saturating_add st.total_charging_time
      (period.period_data.charging_duration.getD HoursDecimal.zero) ∧
    st2.total_parking_time = HoursDecimal.saturating_add st.total_parking_time
      (period.period_data.parking_duration.getD HoursDecimal.zero) := by
  unfold processPeriod at h
  rw [hac] at h
  have hst2 := (Option.some.inj h).symm
  subst hst2
  exact ⟨rfl, rfl, rfl, rfl, rfl, rfl, rfl⟩

lemma processPeriod_inv (tariff : Tariff) (st st2 : LoopState) (period : ChargePeriod)
    (h : processPeriod tariff st period = some st2) (hinv : loopInv st) :
    loopInv st2 := by
  cases hac : Tariff.active_components tariff period with
  | none => unfold processPeriod at h; rw [hac] at h; cases h
  | some components0 =>
    obtain ⟨hix, hper, hss, _, _, _, _⟩ :=
      processPeriod_fields tariff st st2 period components0 hac h
    obtain ⟨hidx, hbv, ht, he, hp⟩ := hinv
    set components := (dropFlat components0 st.has_flat_fee).1 with hcomp
    set newReport :=
      PeriodReport.new period (Dimensions.new components period.period_data) with hnewR
    have hgetNew : (st.periods ++ [newReport]).get? st.periods.length = some newReport :=
      List.get?_concat_length st.periods newReport
    refine ⟨?_, ?_, ?_, ?_, ?_⟩
    · rw [hix, hper, List.length_append, hidx]
      rfl
    · intro pr hpr
      rw [hper] at hpr
      rcases List.mem_append.mp hpr with hl | hr
      · exact hbv pr hl
      · rcases List.mem_singleton.mp hr with rfl
        exact ⟨rfl, rfl, rfl⟩
    · intro i pc hanchor
      rw [hss] at hanchor
      rw [hper]
      cases hcd : period.period_data.charging_duration with
      | some d =>
        cases hct : components.time with
        | some c =>
          have hred : (StepSize.update st.step_size st.index components period).time =
              some (st.index, c) := by
            show (match period.period_data.charging_duration, components.time with
                  | some _, some time => some (st.index, time)
                  | _, _ => st.step_size.time) = some (st.index, c)
            rw [hcd, hct]
          rw [hred] at hanchor
          have hi : st.index = i ∧ c = pc := by
            injection hanchor with h1
            exact ⟨congrArg Prod.fst h1, congrArg Prod.snd h1⟩
          refine ⟨newReport, d, ?_, ?_⟩
          · rw [← hi.1, hidx]
            exact hgetNew
          · show period.period_data.charging_duration = some d
            exact hcd
        | none =>
          have hred : (StepSize.update st.step_size st.index components period).time =
              st.step_size.time := by
            show (match period.period_data.charging_duration, components.time with
                  | some _, some time => some (st.index, time)
                  | _, _ => st.step_size.time) = st.step_size.time
            rw [hcd, hct]
          rw [hred] at hanchor
          obtain ⟨pr, v, hg, hv⟩ := ht i pc hanchor
          exact ⟨pr, v, get?_append_left _ _ _ _ hg, hv⟩
      | none =>
        have hred : (StepSize.update st.step_size st.index components period).time =
            st.step_size.time := by
          show (match period.period_data.charging_duration, components.time with
                | some _, some time => some (st.index, time)
                | _, _ => st.step_size.time) = st.step_size.time
          rw [hcd]
        rw [hred] at hanchor
        obtain ⟨pr, v, hg, hv⟩ := ht i pc hanchor
        exact ⟨pr, v, get?_append_left _ _ _ _ hg, hv⟩
    · intro i pc hanchor
      rw [hss] at hanchor
      rw [hper]
      cases hcd : period.period_data.energy with
      | some d =>
        cases hct : components.energy with
        | some c =>
          have hred : (StepSize.update st.step_size st.index components period).energy =
              some (st.index, c) := by
            show (match period.period_data.energy, components.energy with
                  | some _, some energy => some (st.index, energy)
                  | _, _ => st.step_size.energy) = some (st.index, c)
            rw [hcd, hct]
          rw [hred] at hanchor
          have hi : st.index = i ∧ c = pc := by
            injection hanchor with h1
            exact ⟨congrArg Prod.fst h1, congrArg Prod.snd h1⟩
          refine ⟨newReport, d, ?_, ?_⟩
          · rw [← hi.1, hidx]
            exact hgetNew
          · show period.period_data.energy = some d
            exact hcd
        | none =>
          have hred : (StepSize.update st.step_size st.index components period).energy =
              st.step_size.energy := by
            show (match period.period_data.energy, components.energy with
                  | some _, some energy => some (st.index, energy)
                  | _, _ => st.step_size.energy) = st.step_size.energy
            rw [hcd, hct]
          rw [hred] at hanchor
          obtain ⟨pr, v, hg, hv⟩ := he i pc hanchor
          exact ⟨pr, v, get?_append_left _ _ _ _ hg, hv⟩
      | none =>
        have hred : (StepSize.update st.step_size st.index components period).energy =
            st.step_size.energy := by
          show (match period.period_data.energy, components.energy with
                | some _, some energy => some (st.index, energy)
                | _, _ => st.step_size.energy) = st.step_size.energy
          rw [hcd]
        rw [hred] at hanchor
        obtain ⟨pr, v, hg, hv⟩ := he i pc hanchor
        exact ⟨pr, v, get?_append_left _ _ _ _ hg, hv⟩
    · intro i pc hanchor
      rw [hss] at hanchor
      rw [hper]
      cases hcd : period.period_data.parking_duration with
      | some d =>
        cases hct : components.parking with
        | some c =>
          have hred :
              (StepSize.update st.step_size st.index components period).parking_time =
              some (st.index, c) := by
            show (match period.period_data.parking_duration, components.parking with
                  | some _, some parking => some (st.index, parking)
                  | _, _ => st.step_size.parking_time) = some (st.index, c)
            rw [hcd, hct]
          rw [hred] at hanchor
          have hi : st.index = i ∧ c = pc := by
            injection hanchor with h1
            exact ⟨congrArg Prod.fst h1, congrArg Prod.snd h1⟩
          refine ⟨newReport, d, ?_, ?_⟩
          · rw [← hi.1, hidx]
            exact hgetNew
          · show period.period_data.parking_duration = some d
            exact hcd
        | none =>
          have hred :
              (StepSize.update st.step_size st.index components period).parking_time =
              st.step_size.parking_time := by
            show (match period.period_data.parking_duration, components.parking with
                  | some _, some parking => some (st.index, parking)
                  | _, _ => st.step_size.parking_time) = st.step_size.parking_time
            rw [hcd, hct]
          rw [hred] at hanchor
          obtain ⟨pr, v, hg, hv⟩ := hp i pc hanchor
          exact ⟨pr, v, get?_append_left _ _ _ _ hg, hv⟩
      | none =>
        have hred :
            (StepSize.update st.step_size st.index components period).parking_time =
            st.step_size.parking_time := by
          show (match period.period_data.parking_duration, components.parking with
                | some _, some parking => some (st.index, parking)
                | _, _ => st.step_size.parking_time) = st.step_size.parking_time
          rw [hcd]
        rw [hred] at hanchor
        obtain ⟨pr, v, hg, hv⟩ := hp i pc hanchor
        exact ⟨pr, v, get?_append_left _ _ _ _ hg, hv⟩

lemma processPeriods_inv (tariff : Tariff) :
    ∀ (ps : List ChargePeriod) (st st2 : LoopState),
      processPeriods tariff st ps = some st2 → loopInv st → loopInv st2 := by
  intro ps
  induction ps with
  | nil =>
    intro st st2 h hinv
    unfold processPeriods at h
    rw [← Option.some.inj h]
    exact hinv
  | cons p rest ih =>
    intro st st2 h hinv
    unfold processPeriods at h
    cases hp : processPeriod tariff st p with
    | none => rw [hp] at h; cases h
    | some stm =>
      rw [hp] at h
      exact ih stm st2 h (processPeriod_inv tariff st stm p hp hinv)

lemma apply_time_suppressed (ss : StepSize) (periods : List PeriodReport)
    (total : HoursDecimal) (x : ℕ × PriceComponent)
    (hpk : ss.parking_time = some x) :
    StepSize.apply_time ss periods total = some (Except.ok (periods, total)) := by
  unfold StepSize.apply_time
  cases hst : ss.time with
  | none => rw [hpk]
  | some pr =>
    obtain ⟨ti, price⟩ := pr
    rw [hpk]

lemma apply_time_no_anchor (ss : StepSize) (periods : List PeriodReport)
    (total : HoursDecimal) (hti : ss.time = none) :
    StepSize.apply_time ss periods total = some (Except.ok (periods, total)) := by
  unfold StepSize.apply_time
  rw [hti]

lemma apply_time_anchor (ss : StepSize) (periods : List PeriodReport)
    (total : HoursDecimal) (ti : ℕ) (price : PriceComponent) (pr : PeriodReport)
    (v : HoursDecimal)
    (hti : ss.time = some (ti, price)) (hpk : ss.parking_time = none)
    (hget : periods.get? ti = some pr)
    (hbv : pr.dimensions.time.billed_volume = some v) :
    StepSize.apply_time ss periods total =
      (match StepSize.duration_step_size total v price.step_size with
       | Except.error e => some (Except.error e)
       | Except.ok (total_billed, new_volume) =>
         some (Except.ok
           (periods.set ti (PeriodReport.setTimeBilled pr new_volume), total_billed))) := by
  simp only [StepSize.apply_time, hti, hpk, hget, hbv]

lemma apply_parking_no_anchor (ss : StepSize) (periods : List PeriodReport)
    (total : HoursDecimal) (hpk : ss.parking_time = none) :
    StepSize.apply_parking_time ss periods total = some (Except.ok (periods, total)) := by
  unfold StepSize.apply_parking_time
  rw [hpk]

lemma apply_parking_anchor (ss : StepSize) (periods : List PeriodReport)
    (total : HoursDecimal) (pi : ℕ) (price : PriceComponent) (pr : PeriodReport)
    (v : HoursDecimal)
    (hpk : ss.parking_time = some (pi, price))
    (hget : periods.get? pi = some pr)
    (hbv : pr.dimensions.parking_time.billed_volume = some v) :
    StepSize.apply_parking_time ss periods total =
      (match StepSize.duration_step_size total v price.step_size with
       | Except.error e => some (Except.error e)
       | Except.ok (total_billed, new_volume) =>
         some (Except.ok
           (periods.set pi (PeriodReport.setParkingBilled pr new_volume), total_billed))) := by
  simp only [StepSize.apply_parking_time, hpk, hget, hbv]

lemma apply_energy_no_anchor (ss : StepSize) (periods : List PeriodReport)
    (total : Kwh) (hen : ss.energy = none) :
    StepSize.apply_energy ss periods total = some (periods, total) := by
  unfold StepSize.apply_energy
  rw [hen]

lemma apply_energy_zero (ss : StepSize) (periods : List PeriodReport)
    (total : Kwh) (ei : ℕ) (price : PriceComponent)
    (hen : ss.energy = some (ei, price)) (hz : price.step_size = 0) :
    StepSize.apply_energy ss periods total = some (periods, total) := by
  simp [StepSize.apply_energy, hen, hz]

lemma apply_energy_anchor (ss : StepSize) (periods : List PeriodReport)
    (total : Kwh) (ei : ℕ) (price : PriceComponent) (pr : PeriodReport) (v : Kwh)
    (hen : ss.energy = some (ei, price)) (hk : 0 < price.step_size)
    (hget : periods.get? ei = some pr)
    (hbv : pr.dimensions.energy.billed_volume = some v) :
    StepSize.apply_energy ss periods total =
      some
        (periods.set ei
          (PeriodReport.setEnergyBilled pr
            (Kwh.saturating_add v
              (Kwh.saturating_sub
                (Kwh.from_watt_hours
                  (Number.saturating_mul
                    (Number.ceil (Kwh.watt_hours total / (price.step_size : ℚ)))
                    (price.step_size : ℚ)))
                total))),
         Kwh.from_watt_hours
           (Number.saturating_mul
             (Number.ceil (Kwh.watt_hours total / (price.step_size : ℚ)))
             (price.step_size : ℚ))) := by
  simp only [StepSize.apply_energy, hen, hget, hbv, if_pos hk]

lemma build_report_ok_inv (p : Pricer) (r : Report)
    (h : Pricer.build_report p = some (Except.ok r)) :
    ∃ tz ti tariff st periods1 bct periods2 be periods3 bpt,
      Pricer.resolve_time_zone p = Except.ok tz ∧
      Pricer.select_tariff p p.cdr.start_date_time = some (ti, tariff) ∧
      processPeriods tariff LoopState.init (ChargeSession.new p.cdr tz).periods = some st ∧
      StepSize.apply_time st.step_size st.periods st.total_charging_time =
        some (Except.ok (periods1, bct)) ∧
      StepSize.apply_energy st.step_size periods1 st.total_energy = some (periods2, be) ∧
      StepSize.apply_parking_time st.step_size periods2 st.total_parking_time =
        some (Except.ok (periods3, bpt)) ∧
      r.periods = periods3 ∧
      r.billed_charging_time = bct ∧
      r.billed_energy = be ∧
      r.billed_parking_time = bpt ∧
      r.total_charging_time = st.total_charging_time ∧
      r.total_energy = st.total_energy ∧
      r.total_parking_time = st.total_parking_time := by
  simp only [Pricer.build_report] at h
  split at h
  · exact absurd h (by simp)
  · rename_i tz hres
    split at h
    · exact absurd h (by simp)
    · rename_i pair ti tariff hsel
      split at h
      · exact absurd h (by simp)
      · rename_i st hst
        split at h
        · exact absurd h (by simp)
        · exact absurd h (by simp)
        · rename_i pair1 periods1 bct happt
          split at h
          · exact absurd h (by simp)
          · rename_i pair2 periods2 be happe
            split at h
            · exact absurd h (by simp)
            · exact absurd h (by simp)
            · rename_i pair3 periods3 bpt happp
              have hr := Except.ok.inj (Option.some.inj h)
              refine ⟨tz, ti, tariff, st, periods1, bct, periods2, be, periods3, bpt,
                hres, hsel, hst, happt, happe, happp, ?_, ?_, ?_, ?_, ?_, ?_, ?_⟩ <;>
                rw [← hr]

lemma apply_time_shape (ss : StepSize) (periods : List PeriodReport)
    (total : HoursDecimal) (periods' : List PeriodReport) (bct : HoursDecimal)
    (h : StepSize.apply_time ss periods total = some (Except.ok (periods', bct))) :
    periods' = periods ∨
      ∃ i pr v, periods.get? i = some pr ∧
        periods' = periods.set i (PeriodReport.setTimeBilled pr v) := by
  unfold StepSize.apply_time at h
  split at h
  · rename_i ti price heq hpat
    split at h
    · exact absurd h (by simp)
    · rename_i period hget
      split at h
      · exact absurd h (by simp)
      · rename_i volume hbv
        split at h
        · exact absurd h (by simp)
        · rename_i tot nv hdss
          have h2 := Except.ok.inj (Option.some.inj h)
          exact Or.inr ⟨ti, period, nv, hget, (congrArg Prod.fst h2).symm⟩
  · have h2 := Except.ok.inj (Option.some.inj h)
    exact Or.inl (congrArg Prod.fst h2).symm

lemma apply_parking_shape (ss : StepSize) (periods : List PeriodReport)
    (total : HoursDecimal) (periods' : List PeriodReport) (bpt : HoursDecimal)
    (h : StepSize.apply_parking_time ss periods total = some (Except.ok (periods', bpt))) :
    periods' = periods ∨
      ∃ i pr v, periods.get? i = some pr ∧
        periods' = periods.set i (PeriodReport.setParkingBilled pr v) := by
  unfold StepSize.apply_parking_time at h
  split at h
  · rename_i pi price heq
    split at h
    · exact absurd h (by simp)
    · rename_i period hget
      split at h
      · exact absurd h (by simp)
      · rename_i volume hbv
        split at h
        · exact absurd h (by simp)
        · rename_i tot nv hdss
          have h2 := Except.ok.inj (Option.some.inj h)
          exact Or.inr ⟨pi, period, nv, hget, (congrArg Prod.fst h2).symm⟩
  · have h2 := Except.ok.inj (Option.some.inj h)
    exact Or.inl (congrArg Prod.fst h2).symm

lemma apply_energy_shape (ss : StepSize) (periods : List PeriodReport)
    (total : Kwh) (periods' : List PeriodReport) (be : Kwh)
    (h : StepSize.apply_energy ss periods total = some (periods', be)) :
    periods' = periods ∨
      ∃ i pr v, periods.get? i = some pr ∧
        periods' = periods.set i (PeriodReport.setEnergyBilled pr v) := by
  unfold StepSize.apply_energy at h
  split at h
  · rename_i ei price heq
    split at h
    · split at h
      · exact absurd h (by simp)
      · rename_i period hget
        split at h
        · exact absurd h (by simp)
        · rename_i volume hbv
          have h2 := Option.some.inj h
          exact Or.inr ⟨ei, period, _, hget, (congrArg Prod.fst h2).symm⟩
    · have h2 := Option.some.inj h
      exact Or.inl (congrArg Prod.fst h2).symm
  · have h2 := Option.some.inj h
    exact Or.inl (congrArg Prod.fst h2).symm

lemma countP_set_congr {α : Type} (pred : α → Bool) :
    ∀ (l : List α) (i : ℕ) (a b : α), l.get? i = some b → pred a = pred b →
      (l.set i a).countP pred = l.countP pred := by
  intro l
  induction l with
  | nil => intro i a b hg _; simp at hg
  | cons x xs ih =>
    intro i a b hg hpred
    cases i with
    | zero =>
      simp only [List.get?] at hg
      obtain rfl := Option.some.inj hg
      simp [List.countP_cons, hpred]
    | succ n =>
      simp only [List.get?] at hg
      simp [List.countP_cons, ih n a b hg hpred]

/-- The flat-fee invariant of the period loop: no period carries a flat
component until the session flag is set, and at most one ever does. -/
def flatInv (st : LoopState) : Prop :=
  (st.has_flat_fee = false →
    (st.periods.countP fun pr => pr.dimensions.flat.price.isSome) = 0) ∧
  (st.periods.countP fun pr => pr.dimensions.flat.price.isSome) ≤ 1

lemma processPeriod_flatInv (tariff : Tariff) (st st2 : LoopState) (period : ChargePeriod)
    (h : processPeriod tariff st period = some st2) (hinv : flatInv st) :
    flatInv st2 := by
  cases hac : Tariff.active_components tariff period with
  | none => unfold processPeriod at h; rw [hac] at h; cases h
  | some components0 =>
    obtain ⟨_, hper, _, hflag, _, _, _⟩ :=
      processPeriod_fields tariff st st2 period components0 hac h
    have hnewflat :
        (PeriodReport.new period
            (Dimensions.new (dropFlat components0 st.has_flat_fee).1
              period.period_data)).dimensions.flat.price =
          (dropFlat components0 st.has_flat_fee).1.flat := rfl
    have hcount : (st2.periods.countP fun pr => pr.dimensions.flat.price.isSome) =
        (st.periods.countP fun pr => pr.dimensions.flat.price.isSome) +
          (if (dropFlat components0 st.has_flat_fee).1.flat.isSome then 1 else 0) := by
      rw [hper, List.countP_append]
      congr 1
      simp [List.countP, List.countP.go, hnewflat]
    unfold dropFlat at hflag hcount
    cases hc0 : components0.flat with
    | none =>
      rw [hc0] at hflag hcount
      simp only [Option.isSome_none, Bool.false_eq_true, if_false] at hflag hcount
      constructor
      · intro hf
        rw [hcount, hinv.1 (by rw [← hflag]; exact hf)]
        simp [hc0]
      · rw [hcount]
        simpa [hc0] using hinv.2
    | some fc =>
      rw [hc0] at hflag hcount
      simp only [Option.isSome_some, if_true] at hflag hcount
      cases hff : st.has_flat_fee with
      | true =>
        rw [hff] at hflag hcount
        simp only [if_true] at hflag hcount
        constructor
        · intro hf
          rw [hflag] at hf
          cases hf
        · rw [hcount]
          simpa using hinv.2
      | false =>
        rw [hff] at hflag hcount
        simp only [if_false, Bool.false_eq_true] at hflag hcount
        constructor
        · intro hf
          rw [hflag] at hf
          cases hf
        · rw [hcount, hinv.1 hff]
          simp [hc0]

lemma processPeriods_flatInv (tariff : Tariff) :
    ∀ (ps : List ChargePeriod) (st st2 : LoopState),
      processPeriods tariff st ps = some st2 → flatInv st → flatInv st2 := by
  intro ps
  induction ps with
  | nil =>
    intro st st2 h hinv
    unfold processPeriods at h
    rw [← Option.some.inj h]
    exact hinv
  | cons p rest ih =>
    intro st st2 h hinv
    unfold processPeriods at h
    cases hp : processPeriod tariff st p with
    | none => rw [hp] at h; cases h
    | some stm =>
      rw [hp] at h
      exact ih stm st2 h (processPeriod_flatInv tariff st stm p hp hinv)

lemma setTimeBilled_flat (pr : PeriodReport) (v : HoursDecimal) :
    (PeriodReport.setTimeBilled pr v).dimensions.flat.price.isSome =
      pr.dimensions.flat.price.isSome := rfl

lemma setParkingBilled_flat (pr : PeriodReport) (v : HoursDecimal) :
    (PeriodReport.setParkingBilled pr v).dimensions.flat.price.isSome =
      pr.dimensions.flat.price.isSome := rfl

lemma setEnergyBilled_flat (pr : PeriodReport) (v : Kwh) :
    (PeriodReport.setEnergyBilled pr v).dimensions.flat.price.isSome =
      pr.dimensions.flat.price.isSome := rfl

/-- C5: a flat price component is charged in at most one period per session:
in any successfully built report, at most one period report carries a flat
price component (and hence a flat cost). -/
theorem C5_flat_charged_once (p : Pricer) (r : Report)
    (h : Pricer.build_report p = some (Except.ok r)) :
    (r.periods.countP fun pr => pr.dimensions.flat.price.isSome) ≤ 1 := by
  obtain ⟨tz, ti, tariff, st, periods1, bct, periods2, be, periods3, bpt,
    hres, hsel, hst, happt, happe, happp, hrper, _, _, _, _, _, _⟩ :=
    build_report_ok_inv p r h
  have hinv0 : flatInv LoopState.init := by
    constructor <;> simp [LoopState.init]
  have hinv := processPeriods_flatInv tariff _ _ _ hst hinv0
  have h1 : (periods1.countP fun pr => pr.dimensions.flat.price.isSome) =
      (st.periods.countP fun pr => pr.dimensions.flat.price.isSome) := by
    rcases apply_time_shape _ _ _ _ _ happt with rfl | ⟨i, pr, v, hget, rfl⟩
    · rfl
    · exact countP_set_congr _ _ _ _ _ hget (setTimeBilled_flat pr v)
  have h2 : (periods2.countP fun pr => pr.dimensions.flat.price.isSome) =
      (periods1.countP fun pr => pr.dimensions.flat.price.isSome) := by
    rcases apply_energy_shape _ _ _ _ _ happe with rfl | ⟨i, pr, v, hget, rfl⟩
    · rfl
    · exact countP_set_congr _ _ _ _ _ hget (setEnergyBilled_flat pr v)
  have h3 : (periods3.countP fun pr => pr.dimensions.flat.price.isSome) =
      (periods2.countP fun pr => pr.dimensions.flat.price.isSome) := by
    rcases apply_parking_shape _ _ _ _ _ happp with rfl | ⟨i, pr, v, hget, rfl⟩
    · rfl
    · exact countP_set_congr _ _ _ _ _ hget (setParkingBilled_flat pr v)
  rw [hrper, h3, h2, h1]
  exact hinv.2

/-- C10: a CDR with no charging periods, a resolvable time zone and an active
tariff prices successfully to an empty report: no periods, zero volume and
time totals (raw and billed), and every cost total absent. -/
theorem C10_empty_session_report (p : Pricer) (tz : Tz) (ti : ℕ) (tariff : Tariff)
    (htz : p.time_zone = some tz)
    (hper : p.cdr.charging_periods = [])
    (hsel : Pricer.select_tariff p p.cdr.start_date_time = some (ti, tariff)) :
    ∃ r, Pricer.build_report p = some (Except.ok r) ∧
      r.periods = [] ∧
      r.total_energy = 0 ∧ r.total_charging_time = 0 ∧ r.total_parking_time = 0 ∧
      r.billed_energy = 0 ∧ r.billed_charging_time = 0 ∧ r.billed_parking_time = 0 ∧
      r.total_time = 0 ∧
      r.total_cost = none ∧ r.total_energy_cost = none ∧ r.total_time_cost = none ∧
      r.total_parking_cost = none ∧ r.total_fixed_cost = none := by
  have hres : Pricer.resolve_time_zone p = Except.ok tz := by
    simp [Pricer.resolve_time_zone, htz]
  have hsel' : Pricer.select_tariff p (ChargeSession.new p.cdr tz).start_date_time =
      some (ti, tariff) := hsel
  have hperiods : (ChargeSession.new p.cdr tz).periods = [] := by
    simp [ChargeSession.new, hper, chargeSessionGo]
  simp only [Pricer.build_report, hres, hsel', hperiods, processPeriods,
    LoopState.init, StepSize.new, StepSize.apply_time, StepSize.apply_energy,
    StepSize.apply_parking_time, sumDimCost, List.foldl, accumulate_cost,
    List.head?, List.getLast?, HoursDecimal.zero, Kwh.zero]
  exact ⟨_, rfl, rfl, rfl, rfl, rfl, rfl, rfl, rfl, rfl, rfl, rfl, rfl, rfl, rfl⟩

/-- An always-active single-element tariff used by concrete scenarios. -/
def flatOnlyTariff : OcpiTariff :=
  { id := "T1"
    currency := "EUR"
    elements := [⟨[⟨TariffDimensionType.Flat, 3/2, CompatibilityVat.Vat none, 0⟩], none⟩]
    start_date_time := none
    end_date_time := none }

def emptyPeriodsPricer : Pricer :=
  { cdr :=
      { start_date_time := 0
        end_date_time := 3600000
        currency := "EUR"
        cdr_location := ⟨"NLD", none⟩
        tariffs := []
        charging_periods := [] }
    tariffs := some [flatOnlyTariff]
    time_zone := some utcTz
    detect_time_zone := false }

theorem C10_empty_session_report_witness :
    (emptyPeriodsPricer.time_zone = some utcTz ∧
     emptyPeriodsPricer.cdr.charging_periods = [] ∧
     Pricer.select_tariff emptyPeriodsPricer emptyPeriodsPricer.cdr.start_date_time =
       some (0, Tariff.new flatOnlyTariff)) ∧
    ∃ r, Pricer.build_report emptyPeriodsPricer = some (Except.ok r) ∧
      r.periods = [] ∧
      r.total_energy = 0 ∧ r.total_charging_time = 0 ∧ r.total_parking_time = 0 ∧
      r.billed_energy = 0 ∧ r.billed_charging_time = 0 ∧ r.billed_parking_time = 0 ∧
      r.total_time = 0 ∧
      r.total_cost = none ∧ r.total_energy_cost = none ∧ r.total_time_cost = none ∧
      r.total_parking_cost = none ∧ r.total_fixed_cost = none :=
  ⟨⟨rfl, rfl, rfl⟩,
   C10_empty_session_report emptyPeriodsPricer utcTz 0 (Tariff.new flatOnlyTariff)
     rfl rfl rfl⟩

/-- A default report, used only to extract the payload of a successful
`build_report` result. -/
def reportDefault : Report :=
  ⟨[], 0, "", "", none, none, 0, 0, 0, none, 0, 0, none, 0, 0, none, none⟩

/-- Extract the report of a successful `build_report` run. -/
def reportOf (o : Option (Except Error Report)) : Report :=
  match o with
  | some (Except.ok r) => r
  | _ => reportDefault

/-- C5 witness: two periods, a flat-only tariff; the flat component is kept in
the first period and dropped from the second, so exactly one period carries
it. -/
def twoPeriodFlatPricer : Pricer :=
  { cdr :=
      { start_date_time := 0
        end_date_time := 7200000
        currency := "EUR"
        cdr_location := ⟨"NLD", none⟩
        tariffs := []
        charging_periods := [⟨0, []⟩, ⟨3600000, []⟩] }
    tariffs := some [flatOnlyTariff]
    time_zone := some utcTz
    detect_time_zone := false }

theorem C5_flat_charged_once_witness :
    Pricer.build_report twoPeriodFlatPricer =
      some (Except.ok (reportOf (Pricer.build_report twoPeriodFlatPricer))) ∧
    (((reportOf (Pricer.build_report twoPeriodFlatPricer)).periods.map
        fun pr => pr.dimensions.flat.price.isSome) = [true, false]) ∧
    ((reportOf (Pricer.build_report twoPeriodFlatPricer)).periods.countP
        fun pr => pr.dimensions.flat.price.isSome) ≤ 1 :=
  ⟨rfl, rfl, C5_flat_charged_once twoPeriodFlatPricer _ rfl⟩

lemma all_after_set {α : Type} (P : α → Prop) (l : List α) (i : ℕ) (a b : α)
    (hget : l.get? i = some b) (hall : ∀ x ∈ l, P x) (hab : P b → P a) :
    ∀ x ∈ l.set i a, P x := by
  intro x hx
  rcases List.mem_or_eq_of_mem_set hx with hmem | rfl
  · exact hall x hmem
  · exact hab (hall b (List.get?_mem hget))

/-- C2: when any period contributed a parking-time volume while a parking
price component was active (a parking step-size anchor exists), the time
step size is not applied: the billed charging time equals the raw total and
every period's time billed volume equals its raw volume.  When no parking
anchor exists and a time anchor does, the time step size is applied to the
charging-time total (rounding it up to a multiple of `step_size` seconds;
a zero step size leaves the total unchanged). -/
theorem C2_parking_anchor_suppresses_time_step (p : Pricer) (tz : Tz) (ti : ℕ)
    (tariff : Tariff) (st : LoopState) (r : Report)
    (hres : Pricer.resolve_time_zone p = Except.ok tz)
    (hsel : Pricer.select_tariff p p.cdr.start_date_time = some (ti, tariff))
    (hst : processPeriods tariff LoopState.init
      (ChargeSession.new p.cdr tz).periods = some st)
    (hok : Pricer.build_report p = some (Except.ok r)) :
    (st.step_size.parking_time.isSome = true →
      r.billed_charging_time = r.total_charging_time ∧
      ∀ pr ∈ r.periods,
        pr.dimensions.time.billed_volume = pr.dimensions.time.volume) ∧
    (st.step_size.parking_time = none →
      ∀ i pc, st.step_size.time = some (i, pc) →
        (pc.step_size = 0 → r.billed_charging_time = r.total_charging_time) ∧
        (0 < pc.step_size →
          HoursDecimal.as_num_seconds_number r.billed_charging_time =
            Number.ceil (HoursDecimal.as_num_seconds_number r.total_charging_time /
              (pc.step_size : ℚ)) * (pc.step_size : ℚ))) := by
  obtain ⟨tz', ti', tariff', st', periods1, bct, periods2, be, periods3, bpt,
    hres', hsel', hst', happt, happe, happp, hrper, hrbct, _, _, hrtct, _, _⟩ :=
    build_report_ok_inv p r hok
  rw [hres] at hres'
  obtain rfl : tz = tz' := Except.ok.inj hres'
  rw [hsel] at hsel'
  have hpair := Option.some.inj hsel'
  obtain rfl : tariff = tariff' := congrArg Prod.snd hpair
  rw [hst] at hst'
  obtain rfl : st = st' := Option.some.inj hst'
  have hinv := processPeriods_inv tariff _ LoopState.init st hst loopInv_init
  constructor
  · intro hpk
    obtain ⟨x, hx⟩ := Option.isSome_iff_exists.mp hpk
    rw [apply_time_suppressed st.step_size st.periods st.total_charging_time x hx] at happt
    have hpb := Except.ok.inj (Option.some.inj happt)
    have hp1 : st.periods = periods1 := congrArg Prod.fst hpb
    have hb1 : st.total_charging_time = bct := congrArg Prod.snd hpb
    constructor
    · rw [hrbct, hrtct, hb1]
    · rw [hrper]
      have hall1 : ∀ pr ∈ periods1,
          pr.dimensions.time.billed_volume = pr.dimensions.time.volume := by
        rw [← hp1]
        intro pr hpr
        exact (hinv.2.1 pr hpr).1
      have hall2 : ∀ pr ∈ periods2,
          pr.dimensions.time.billed_volume = pr.dimensions.time.volume := by
        rcases apply_energy_shape _ _ _ _ _ happe with rfl | ⟨i, pr, v, hget, rfl⟩
        · exact hall1
        · exact all_after_set _ _ _ _ _ hget hall1 (fun h => h)
      rcases apply_parking_shape _ _ _ _ _ happp with rfl | ⟨i, pr, v, hget, rfl⟩
      · exact hall2
      · exact all_after_set _ _ _ _ _ hget hall2 (fun h => h)
  · intro hpk i pc hta
    obtain ⟨pr, v, hget, hvol⟩ := hinv.2.2.1 i pc hta
    have hbilled : pr.dimensions.time.billed_volume = some v := by
      rw [(hinv.2.1 pr (List.get?_mem hget)).1]
      exact hvol
    rw [apply_time_anchor st.step_size st.periods st.total_charging_time i pc pr v
      hta hpk hget hbilled] at happt
    cases hdss : StepSize.duration_step_size st.total_charging_time v pc.step_size with
    | error e =>
      rw [hdss] at happt
      exact absurd happt (by simp)
    | ok pair =>
      obtain ⟨tot, nv⟩ := pair
      rw [hdss] at happt
      have hpb := Except.ok.inj (Option.some.inj happt)
      have hb1 : tot = bct := congrArg Prod.snd hpb
      have hspec := duration_step_size_spec st.total_charging_time v pc.step_size tot nv hdss
      constructor
      · intro hz
        rw [hrbct, hrtct, ← hb1, (hspec.1 hz).1]
      · intro hkpos
        rw [hrbct, hrtct, ← hb1]
        exact (hspec.2 hkpos).2.2.2.2

/-- Extract the state of a successful period loop. -/
def stateOf (o : Option LoopState) : LoopState := o.getD LoopState.init

/-- C2 witness input: half an hour of charging, then half an hour of parking;
the tariff prices time with a one-hour step size and parking with none. -/
def timeParkTariff : OcpiTariff :=
  { id := "T2"
    currency := "EUR"
    elements :=
      [⟨[⟨TariffDimensionType.Time, 2, CompatibilityVat.Vat none, 3600⟩,
         ⟨TariffDimensionType.ParkingTime, 1, CompatibilityVat.Vat none, 0⟩], none⟩]
    start_date_time := none
    end_date_time := none }

def timeParkPricer : Pricer :=
  { cdr :=
      { start_date_time := 0
        end_date_time := 7200000
        currency := "EUR"
        cdr_location := ⟨"NLD", none⟩
        tariffs := []
        charging_periods :=
          [⟨0, [OcpiCdrDimension.Time 1800000]⟩,
           ⟨3600000, [OcpiCdrDimension.ParkingTime 1800000]⟩] }
    tariffs := some [timeParkTariff]
    time_zone := some utcTz
    detect_time_zone := false }

def timeParkState : LoopState :=
  stateOf (processPeriods (Tariff.new timeParkTariff) LoopState.init
    (ChargeSession.new timeParkPricer.cdr utcTz).periods)

theorem C2_parking_anchor_suppresses_time_step_witness :
    (Pricer.resolve_time_zone timeParkPricer = Except.ok utcTz ∧
     Pricer.select_tariff timeParkPricer timeParkPricer.cdr.start_date_time =
       some (0, Tariff.new timeParkTariff) ∧
     processPeriods (Tariff.new timeParkTariff) LoopState.init
       (ChargeSession.new timeParkPricer.cdr utcTz).periods = some timeParkState ∧
     Pricer.build_report timeParkPricer =
       some (Except.ok (reportOf (Pricer.build_report timeParkPricer))) ∧
     timeParkState.step_size.parking_time.isSome = true) ∧
    ((reportOf (Pricer.build_report timeParkPricer)).billed_charging_time =
       (reportOf (Pricer.build_report timeParkPricer)).total_charging_time ∧
     ∀ pr ∈ (reportOf (Pricer.build_report timeParkPricer)).periods,
       pr.dimensions.time.billed_volume = pr.dimensions.time.volume) :=
  ⟨⟨rfl, rfl, rfl, rfl, rfl⟩,
   (C2_parking_anchor_suppresses_time_step timeParkPricer utcTz 0
     (Tariff.new timeParkTariff) timeParkState
     (reportOf (Pricer.build_report timeParkPricer)) rfl rfl rfl rfl).1 rfl⟩

lemma get?_set_proj {α β : Type} (f : α → β) (l : List α) (i : ℕ) (a b : α)
    (hget : l.get? i = some b) (hfab : f a = f b) :
    ∀ j, ((l.set i a).get? j).map f = (l.get? j).map f := by
  intro j
  by_cases hj : j = i
  · subst hj
    rw [List.get?_set_eq_of_lt a (List.get?_eq_some.mp hget).1, hget]
    simp [hfab]
  · rw [List.get?_set_ne a l (fun h => hj h.symm)]

lemma proj_eq_of_shape_time {periods' periods : List PeriodReport}
    (h : periods' = periods ∨
      ∃ i pr v, periods.get? i = some pr ∧
        periods' = periods.set i (PeriodReport.setTimeBilled pr v)) :
    (∀ j, ((periods'.get? j).map fun q => q.dimensions.energy) =
      ((periods.get? j).map fun q => q.dimensions.energy)) ∧
    (∀ j, ((periods'.get? j).map fun q => q.dimensions.parking_time) =
      ((periods.get? j).map fun q => q.dimensions.parking_time)) := by
  rcases h with rfl | ⟨i, pr, v, hget, rfl⟩
  · exact ⟨fun _ => rfl, fun _ => rfl⟩
  · exact ⟨get?_set_proj _ _ _ _ _ hget rfl, get?_set_proj _ _ _ _ _ hget rfl⟩

lemma proj_eq_of_shape_energy {periods' periods : List PeriodReport}
    (h : periods' = periods ∨
      ∃ i pr v, periods.get? i = some pr ∧
        periods' = periods.set i (PeriodReport.setEnergyBilled pr v)) :
    (∀ j, ((periods'.get? j).map fun q => q.dimensions.time) =
      ((periods.get? j).map fun q => q.dimensions.time)) ∧
    (∀ j, ((periods'.get? j).map fun q => q.dimensions.parking_time) =
      ((periods.get? j).map fun q => q.dimensions.parking_time)) := by
  rcases h with rfl | ⟨i, pr, v, hget, rfl⟩
  · exact ⟨fun _ => rfl, fun _ => rfl⟩
  · exact ⟨get?_set_proj _ _ _ _ _ hget rfl, get?_set_proj _ _ _ _ _ hget rfl⟩

lemma proj_eq_of_shape_parking {periods' periods : List PeriodReport}
    (h : periods' = periods ∨
      ∃ i pr v, periods.get? i = some pr ∧
        periods' = periods.set i (PeriodReport.setParkingBilled pr v)) :
    (∀ j, ((periods'.get? j).map fun q => q.dimensions.time) =
      ((periods.get? j).map fun q => q.dimensions.time)) ∧
    (∀ j, ((periods'.get? j).map fun q => q.dimensions.energy) =
      ((periods.get? j).map fun q => q.dimensions.energy)) := by
  rcases h with rfl | ⟨i, pr, v, hget, rfl⟩
  · exact ⟨fun _ => rfl, fun _ => rfl⟩
  · exact ⟨get?_set_proj _ _ _ _ _ hget rfl, get?_set_proj _ _ _ _ _ hget rfl⟩

lemma billed_eq_volume_of_proj {periods' periods : List PeriodReport}
    {f : PeriodReport → DimensionReport HoursDecimal}
    (hproj : ∀ j, ((periods'.get? j).map f) = ((periods.get? j).map f))
    (hall : ∀ pr ∈ periods, (f pr).billed_volume = (f pr).volume) :
    ∀ pr ∈ periods', (f pr).billed_volume = (f pr).volume := by
  intro pr hpr
  obtain ⟨j, hj⟩ := List.mem_iff_get?.mp hpr
  have := hproj j
  rw [hj] at this
  obtain ⟨q, hq, hfq⟩ := Option.map_eq_some'.mp this.symm
  rw [← hfq]
  exact hall q (List.get?_mem hq)

lemma billed_eq_volume_of_proj_kwh {periods' periods : List PeriodReport}
    {f : PeriodReport → DimensionReport Kwh}
    (hproj : ∀ j, ((periods'.get? j).map f) = ((periods.get? j).map f))
    (hall : ∀ pr ∈ periods, (f pr).billed_volume = (f pr).volume) :
    ∀ pr ∈ periods', (f pr).billed_volume = (f pr).volume := by
  intro pr hpr
  obtain ⟨j, hj⟩ := List.mem_iff_get?.mp hpr
  have := hproj j
  rw [hj] at this
  obtain ⟨q, hq, hfq⟩ := Option.map_eq_some'.mp this.symm
  rw [← hfq]
  exact hall q (List.get?_mem hq)


/-- C1 (amended): in a successfully built report, for each dimension with a
step-size anchor: a zero step size leaves the billed total and every billed
volume equal to the raw ones; a positive step size rounds the session total
up to the next multiple of the step (in Wh for energy, in seconds for the
duration dimensions), so billed ≥ raw and the difference is less than one
step (one Wh-step is `step_size / 1000` kWh); the whole rounding delta is
added to the anchor period's billed volume (for the duration dimensions
through the saturating `chrono` operations) and every other period's billed
volume equals its raw volume.  Exception, forced by the special time rule:
when a parking anchor exists the time step size is not applied and the billed
charging time equals the raw total. -/
theorem C1_step_size_rounding_amended (p : Pricer) (tz : Tz) (ti : ℕ)
    (tariff : Tariff) (st : LoopState) (r : Report)
    (hres : Pricer.resolve_time_zone p = Except.ok tz)
    (hsel : Pricer.select_tariff p p.cdr.start_date_time = some (ti, tariff))
    (hst : processPeriods tariff LoopState.init
      (ChargeSession.new p.cdr tz).periods = some st)
    (hok : Pricer.build_report p = some (Except.ok r)) :
    (∀ i pc, st.step_size.energy = some (i, pc) →
      (pc.step_size = 0 →
        r.billed_energy = r.total_energy ∧
        ∀ pr ∈ r.periods,
          pr.dimensions.energy.billed_volume = pr.dimensions.energy.volume) ∧
      (0 < pc.step_size →
        Kwh.watt_hours r.billed_energy =
          Number.ceil (Kwh.watt_hours r.total_energy / (pc.step_size : ℚ)) *
            (pc.step_size : ℚ) ∧
        r.total_energy ≤ r.billed_energy ∧
        r.billed_energy - r.total_energy < (pc.step_size : ℚ) / 1000 ∧
        (∀ j pr', j ≠ i → r.periods.get? j = some pr' →
          pr'.dimensions.energy.billed_volume = pr'.dimensions.energy.volume) ∧
        (∃ pr' v, r.periods.get? i = some pr' ∧
          pr'.dimensions.energy.volume = some v ∧
          pr'.dimensions.energy.billed_volume =
            some (v + (r.billed_energy - r.total_energy))))) ∧
    (∀ i pc, st.step_size.parking_time = some (i, pc) →
      (pc.step_size = 0 →
        r.billed_parking_time = r.total_parking_time ∧
        ∀ pr ∈ r.periods,
          pr.dimensions.parking_time.billed_volume =
            pr.dimensions.parking_time.volume) ∧
      (0 < pc.step_size →
        HoursDecimal.as_num_seconds_number r.billed_parking_time =
          Number.ceil (HoursDecimal.as_num_seconds_number r.total_parking_time /
            (pc.step_size : ℚ)) * (pc.step_size : ℚ) ∧
        r.total_parking_time ≤ r.billed_parking_time ∧
        HoursDecimal.as_num_seconds_number r.billed_parking_time -
            HoursDecimal.as_num_seconds_number r.total_parking_time <
          (pc.step_size : ℚ) ∧
        (∀ j pr', j ≠ i → r.periods.get? j = some pr' →
          pr'.dimensions.parking_time.billed_volume =
            pr'.dimensions.parking_time.volume) ∧
        (∃ pr' v, r.periods.get? i = some pr' ∧
          pr'.dimensions.parking_time.volume = some v ∧
          pr'.dimensions.parking_time.billed_volume =
            some (HoursDecimal.saturating_add v
              (HoursDecimal.saturating_sub r.billed_parking_time
                r.total_parking_time))))) ∧
    (∀ i pc, st.step_size.time = some (i, pc) →
      (st.step_size.parking_time.isSome = true →
        r.billed_charging_time = r.total_charging_time) ∧
      (st.step_size.parking_time = none → pc.step_size = 0 →
        r.billed_charging_time = r.total_charging_time ∧
        ∀ pr ∈ r.periods,
          pr.dimensions.time.billed_volume = pr.dimensions.time.volume) ∧
      (st.step_size.parking_time = none → 0 < pc.step_size →
        HoursDecimal.as_num_seconds_number r.billed_charging_time =
          Number.ceil (HoursDecimal.as_num_seconds_number r.total_charging_time /
            (pc.step_size : ℚ)) * (pc.step_size : ℚ) ∧
        r.total_charging_time ≤ r.billed_charging_time ∧
        HoursDecimal.as_num_seconds_number r.billed_charging_time -
            HoursDecimal.as_num_seconds_number r.total_charging_time <
          (pc.step_size : ℚ) ∧
        (∀ j pr', j ≠ i → r.periods.get? j = some pr' →
          pr'.dimensions.time.billed_volume = pr'.dimensions.time.volume) ∧
        (∃ pr' v, r.periods.get? i = some pr' ∧
          pr'.dimensions.time.volume = some v ∧
          pr'.dimensions.time.billed_volume =
            some (HoursDecimal.saturating_add v
              (HoursDecimal.saturating_sub r.billed_charging_time
                r.total_charging_time))))) := by
  obtain ⟨tz', ti', tariff', st', periods1, bct, periods2, be, periods3, bpt,
    hres', hsel', hst', happt, happe, happp, hrper, hrbct, hrbe, hrbpt,
    hrtct, hrte, hrtpt⟩ := build_report_ok_inv p r hok
  rw [hres] at hres'
  obtain rfl : tz = tz' := Except.ok.inj hres'
  rw [hsel] at hsel'
  have hpair := Option.some.inj hsel'
  obtain rfl : tariff = tariff' := congrArg Prod.snd hpair
  rw [hst] at hst'
  obtain rfl : st = st' := Option.some.inj hst'
  have hinv := processPeriods_inv tariff _ LoopState.init st hst loopInv_init
  have hshape1 := apply_time_shape _ _ _ _ _ happt
  have hproj1 := proj_eq_of_shape_time hshape1
  refine ⟨?_, ?_, ?_⟩
  · -- ENERGY
    intro i pc hanchor
    obtain ⟨pr, v, hget, hvol⟩ := hinv.2.2.2.1 i pc hanchor
    have hbilled : pr.dimensions.energy.billed_volume = some v := by
      rw [(hinv.2.1 pr (List.get?_mem hget)).2.1]
      exact hvol
    have hmap1 : (periods1.get? i).map (fun q => q.dimensions.energy) =
        some pr.dimensions.energy := by
      rw [hproj1.1 i, hget]
      rfl
    obtain ⟨pr1, hget1, hpr1⟩ := Option.map_eq_some'.mp hmap1
    have hproj3 := proj_eq_of_shape_parking (apply_parking_shape _ _ _ _ _ happp)
    constructor
    · intro hz
      rw [apply_energy_zero _ _ _ i pc hanchor hz] at happe
      have hpb := Option.some.inj happe
      have hper2 : periods1 = periods2 := congrArg Prod.fst hpb
      have hbe : st.total_energy = be := congrArg Prod.snd hpb
      refine ⟨by rw [hrbe, hrte, hbe], ?_⟩
      rw [hrper]
      have hprojAll : ∀ j, ((periods3.get? j).map fun q => q.dimensions.energy) =
          ((st.periods.get? j).map fun q => q.dimensions.energy) := by
        intro j
        rw [hproj3.2 j, ← hper2, hproj1.1 j]
      exact billed_eq_volume_of_proj_kwh hprojAll
        (fun q hq => (hinv.2.1 q hq).2.1)
    · intro hk
      have hb1 : pr1.dimensions.energy.billed_volume = some v := by
        rw [hpr1]
        exact hbilled
      rw [apply_energy_anchor _ _ _ i pc pr1 v hanchor hk hget1 hb1] at happe
      have hpb := Option.some.inj happe
      have hper2 : periods1.set i
          (PeriodReport.setEnergyBilled pr1
            (Kwh.saturating_add v
              (Kwh.saturating_sub
                (Kwh.from_watt_hours
                    (Number.saturating_mul
                      (Number.ceil
                        (Kwh.watt_hours st.total_energy / (pc.step_size : ℚ)))
                      (pc.step_size : ℚ)))
                st.total_energy))) = periods2 := congrArg Prod.fst hpb
      have hbe : (Kwh.from_watt_hours
                    (Number.saturating_mul
                      (Number.ceil
                        (Kwh.watt_hours st.total_energy / (pc.step_size : ℚ)))
                      (pc.step_size : ℚ))) = be := congrArg Prod.snd hpb
      have hspec := energy_billed_spec st.total_energy pc.step_size hk
      refine ⟨?_, ?_, ?_, ?_, ?_⟩
      · rw [hrbe, hrte, ← hbe]
        exact hspec.2.2
      · rw [hrbe, hrte, ← hbe]
        exact hspec.1
      · rw [hrbe, hrte, ← hbe]
        exact hspec.2.1
      · intro j pr' hj hgetj
        have hjE : ((r.periods.get? j).map fun q => q.dimensions.energy) =
            ((st.periods.get? j).map fun q => q.dimensions.energy) := by
          rw [hrper, hproj3.2 j, ← hper2,
            List.get?_set_ne _ _ (fun h => hj h.symm), hproj1.1 j]
        rw [hgetj] at hjE
        obtain ⟨q, hq, hfq⟩ := Option.map_eq_some'.mp hjE.symm
        have hfq2 : q.dimensions.energy = pr'.dimensions.energy := hfq
        rw [← hfq2]
        exact (hinv.2.1 q (List.get?_mem hq)).2.1
      · have hlen : i < periods1.length := (List.get?_eq_some.mp hget1).1
        have hiE : ((r.periods.get? i).map fun q => q.dimensions.energy) =
            some (PeriodReport.setEnergyBilled pr1
              (Kwh.saturating_add v
                (Kwh.saturating_sub
                  (Kwh.from_watt_hours
                    (Number.saturating_mul
                      (Number.ceil
                        (Kwh.watt_hours st.total_energy / (pc.step_size : ℚ)))
                      (pc.step_size : ℚ)))
                  st.total_energy))).dimensions.energy := by
          rw [hrper, hproj3.2 i, ← hper2, List.get?_set_eq_of_lt _ hlen]
          rfl
        obtain ⟨pr', hgeti, hfpr'⟩ := Option.map_eq_some'.mp hiE
        refine ⟨pr', v, hgeti, ?_, ?_⟩
        · have hvq := congrArg DimensionReport.volume hfpr'
          rw [hvq]
          show pr1.dimensions.energy.volume = some v
          rw [hpr1]
          exact hvol
        · have hbq := congrArg DimensionReport.billed_volume hfpr'
          rw [hbq]
          show some (Kwh.saturating_add v
              (Kwh.saturating_sub
                (Kwh.from_watt_hours
                    (Number.saturating_mul
                      (Number.ceil
                        (Kwh.watt_hours st.total_energy / (pc.step_size : ℚ)))
                      (pc.step_size : ℚ)))
                st.total_energy)) =
            some (v + (r.billed_energy - r.total_energy))
          rw [hrbe, hrte, ← hbe]
          rfl
  · -- PARKING
    intro i pc hanchor
    obtain ⟨pr, v, hget, hvol⟩ := hinv.2.2.2.2 i pc hanchor
    have hbilled : pr.dimensions.parking_time.billed_volume = some v := by
      rw [(hinv.2.1 pr (List.get?_mem hget)).2.2]
      exact hvol
    have hproj2 := proj_eq_of_shape_energy (apply_energy_shape _ _ _ _ _ happe)
    have hmap2 : (periods2.get? i).map (fun q => q.dimensions.parking_time) =
        some pr.dimensions.parking_time := by
      rw [hproj2.2 i, hproj1.2 i, hget]
      rfl
    obtain ⟨pr2, hget2, hpr2⟩ := Option.map_eq_some'.mp hmap2
    have hb2 : pr2.dimensions.parking_time.billed_volume = some v := by
      rw [hpr2]
      exact hbilled
    rw [apply_parking_anchor _ _ _ i pc pr2 v hanchor hget2 hb2] at happp
    constructor
    · intro hz
      have hdz : StepSize.duration_step_size st.total_parking_time v pc.step_size =
          Except.ok (st.total_parking_time, v) := by
        unfold StepSize.duration_step_size
        rw [if_neg (by omega)]
      rw [hdz] at happp
      have hpb := Except.ok.inj (Option.some.inj happp)
      have hper3 : periods2.set i (PeriodReport.setParkingBilled pr2 v) = periods3 :=
        congrArg Prod.fst hpb
      have hbpt : st.total_parking_time = bpt := congrArg Prod.snd hpb
      refine ⟨by rw [hrbpt, hrtpt, hbpt], ?_⟩
      rw [hrper, ← hper3]
      have hall2 : ∀ q ∈ periods2,
          q.dimensions.parking_time.billed_volume =
            q.dimensions.parking_time.volume :=
        billed_eq_volume_of_proj (fun j => (hproj2.2 j).trans (hproj1.2 j))
          (fun q hq => (hinv.2.1 q hq).2.2)
      refine all_after_set _ _ _ _ _ hget2 hall2 (fun _ => ?_)
      show some v = pr2.dimensions.parking_time.volume
      rw [hpr2]
      exact hvol.symm
    · intro hk
      cases hdss : StepSize.duration_step_size st.total_parking_time v pc.step_size with
      | error e =>
        rw [hdss] at happp
        exact absurd happp (by simp)
      | ok pair =>
        obtain ⟨tot, nv⟩ := pair
        rw [hdss] at happp
        have hpb := Except.ok.inj (Option.some.inj happp)
        have hper3 : periods2.set i (PeriodReport.setParkingBilled pr2 nv) = periods3 :=
          congrArg Prod.fst hpb
        have hbpt : tot = bpt := congrArg Prod.snd hpb
        have hspec :=
          (duration_step_size_spec st.total_parking_time v pc.step_size tot nv hdss).2 hk
        refine ⟨?_, ?_, ?_, ?_, ?_⟩
        · rw [hrbpt, hrtpt, ← hbpt]
          exact hspec.2.2.2.2
        · rw [hrbpt, hrtpt, ← hbpt]
          exact hspec.2.2.1
        · rw [hrbpt, hrtpt, ← hbpt]
          have h4 := hspec.2.2.2.1
          unfold HoursDecimal.as_num_seconds_number
          linarith
        · intro j pr' hj hgetj
          have hjE : ((r.periods.get? j).map fun q => q.dimensions.parking_time) =
              ((st.periods.get? j).map fun q => q.dimensions.parking_time) := by
            rw [hrper, ← hper3, List.get?_set_ne _ _ (fun h => hj h.symm),
              hproj2.2 j, hproj1.2 j]
          rw [hgetj] at hjE
          obtain ⟨q, hq, hfq⟩ := Option.map_eq_some'.mp hjE.symm
          have hfq2 : q.dimensions.parking_time = pr'.dimensions.parking_time := hfq
          rw [← hfq2]
          exact (hinv.2.1 q (List.get?_mem hq)).2.2
        · have hlen : i < periods2.length := (List.get?_eq_some.mp hget2).1
          have hiE : r.periods.get? i =
              some (PeriodReport.setParkingBilled pr2 nv) := by
            rw [hrper, ← hper3, List.get?_set_eq_of_lt _ hlen]
          refine ⟨_, v, hiE, ?_, ?_⟩
          · show pr2.dimensions.parking_time.volume = some v
            rw [hpr2]
            exact hvol
          · show some nv = some (HoursDecimal.saturating_add v
              (HoursDecimal.saturating_sub r.billed_parking_time
                r.total_parking_time))
            rw [hrbpt, hrtpt, ← hbpt, hspec.2.1]
  · -- TIME
    intro i pc hanchor
    refine ⟨?_, ?_, ?_⟩
    · intro hpk
      obtain ⟨x, hx⟩ := Option.isSome_iff_exists.mp hpk
      rw [apply_time_suppressed _ _ _ x hx] at happt
      have hpb := Except.ok.inj (Option.some.inj happt)
      have hb1 : st.total_charging_time = bct := congrArg Prod.snd hpb
      rw [hrbct, hrtct, hb1]
    · intro hpk hz
      obtain ⟨pr, v, hget, hvol⟩ := hinv.2.2.1 i pc hanchor
      have hbilled : pr.dimensions.time.billed_volume = some v := by
        rw [(hinv.2.1 pr (List.get?_mem hget)).1]
        exact hvol
      rw [apply_time_anchor _ _ _ i pc pr v hanchor hpk hget hbilled] at happt
      have hdz : StepSize.duration_step_size st.total_charging_time v pc.step_size =
          Except.ok (st.total_charging_time, v) := by
        unfold StepSize.duration_step_size
        rw [if_neg (by omega)]
      rw [hdz] at happt
      have hpb := Except.ok.inj (Option.some.inj happt)
      have hper1 : st.periods.set i (PeriodReport.setTimeBilled pr v) = periods1 :=
        congrArg Prod.fst hpb
      have hbct : st.total_charging_time = bct := congrArg Prod.snd hpb
      refine ⟨by rw [hrbct, hrtct, hbct], ?_⟩
      rw [hrper]
      have hproj2 := proj_eq_of_shape_energy (apply_energy_shape _ _ _ _ _ happe)
      have hproj3 := proj_eq_of_shape_parking (apply_parking_shape _ _ _ _ _ happp)
      have hall1 : ∀ q ∈ periods1,
          q.dimensions.time.billed_volume = q.dimensions.time.volume := by
        rw [← hper1]
        refine all_after_set _ _ _ _ _ hget
          (fun q hq => (hinv.2.1 q hq).1) (fun _ => ?_)
        show some v = pr.dimensions.time.volume
        exact hvol.symm
      exact billed_eq_volume_of_proj
        (fun j => (hproj3.1 j).trans (hproj2.1 j)) hall1
    · intro hpk hk
      obtain ⟨pr, v, hget, hvol⟩ := hinv.2.2.1 i pc hanchor
      have hbilled : pr.dimensions.time.billed_volume = some v := by
        rw [(hinv.2.1 pr (List.get?_mem hget)).1]
        exact hvol
      rw [apply_time_anchor _ _ _ i pc pr v hanchor hpk hget hbilled] at happt
      cases hdss : StepSize.duration_step_size st.total_charging_time v pc.step_size with
      | error e =>
        rw [hdss] at happt
        exact absurd happt (by simp)
      | ok pair =>
        obtain ⟨tot, nv⟩ := pair
        rw [hdss] at happt
        have hpb := Except.ok.inj (Option.some.inj happt)
        have hper1 : st.periods.set i (PeriodReport.setTimeBilled pr nv) = periods1 :=
          congrArg Prod.fst hpb
        have hbct : tot = bct := congrArg Prod.snd hpb
        have hspec :=
          (duration_step_size_spec st.total_charging_time v pc.step_size tot nv hdss).2 hk
        have hproj2 := proj_eq_of_shape_energy (apply_energy_shape _ _ _ _ _ happe)
        have hproj3 := proj_eq_of_shape_parking (apply_parking_shape _ _ _ _ _ happp)
        refine ⟨?_, ?_, ?_, ?_, ?_⟩
        · rw [hrbct, hrtct, ← hbct]
          exact hspec.2.2.2.2
        · rw [hrbct, hrtct, ← hbct]
          exact hspec.2.2.1
        · rw [hrbct, hrtct, ← hbct]
          have h4 := hspec.2.2.2.1
          unfold HoursDecimal.as_num_seconds_number
          linarith
        · intro j pr' hj hgetj
          have hjE : ((r.periods.get? j).map fun q => q.dimensions.time) =
              ((st.periods.get? j).map fun q => q.dimensions.time) := by
            rw [hrper, hproj3.1 j, hproj2.1 j, ← hper1,
              List.get?_set_ne _ _ (fun h => hj h.symm)]
          rw [hgetj] at hjE
          obtain ⟨q, hq, hfq⟩ := Option.map_eq_some'.mp hjE.symm
          have hfq2 : q.dimensions.time = pr'.dimensions.time := hfq
          rw [← hfq2]
          exact (hinv.2.1 q (List.get?_mem hq)).1
        · have hlen : i < st.periods.length := (List.get?_eq_some.mp hget).1
          have hiE : ((r.periods.get? i).map fun q => q.dimensions.time) =
              some (PeriodReport.setTimeBilled pr nv).dimensions.time := by
            rw [hrper, hproj3.1 i, hproj2.1 i, ← hper1,
              List.get?_set_eq_of_lt _ hlen]
            rfl
          obtain ⟨pr', hgeti, hfpr'⟩ := Option.map_eq_some'.mp hiE
          refine ⟨pr', v, hgeti, ?_, ?_⟩
          · have hvq := congrArg DimensionReport.volume hfpr'
            rw [hvq]
            show pr.dimensions.time.volume = some v
            exact hvol
          · have hbq := congrArg DimensionReport.billed_volume hfpr'
            rw [hbq]
            show some nv = some (HoursDecimal.saturating_add v
              (HoursDecimal.saturating_sub r.billed_charging_time
                r.total_charging_time))
            rw [hrbct, hrtct, ← hbct, hspec.2.1]

/-- The time price component of `timeParkTariff` as recorded in the step-size
anchor: element index 0, price 2, no VAT, step size 3600 seconds. -/
def c1pc : PriceComponent := ⟨0, 2, CompatibilityVat.Vat none, 3600⟩

/-- C1 counterexample: the claimed formula does not hold for the charging-time
dimension of every session.  In `timeParkPricer` the session has 1800 seconds
of charging and a time component with step size 3600, so the claim predicts a
billed charging time of `ceil(1800 / 3600) * 3600 = 3600` seconds; but the
session also has a parking anchor, which suppresses the time step size, and
the report bills the raw 1800 seconds. -/
theorem C1_step_size_counterexample :
    timeParkState.step_size.time = some (0, c1pc) ∧
    0 < c1pc.step_size ∧
    Pricer.build_report timeParkPricer =
      some (Except.ok (reportOf (Pricer.build_report timeParkPricer))) ∧
    HoursDecimal.as_num_seconds_number
        (reportOf (Pricer.build_report timeParkPricer)).total_charging_time =
      (1800 : ℚ) ∧
    HoursDecimal.as_num_seconds_number
        (reportOf (Pricer.build_report timeParkPricer)).billed_charging_time =
      (1800 : ℚ) ∧
    Number.ceil ((1800 : ℚ) / (c1pc.step_size : ℚ)) * (c1pc.step_size : ℚ) ≠
      (1800 : ℚ) := by
  refine ⟨rfl, by decide, rfl, ?_, ?_, ?_⟩
  · have h : (reportOf (Pricer.build_report timeParkPricer)).total_charging_time =
        (1800000 : ℤ) := rfl
    rw [h]
    unfold HoursDecimal.as_num_seconds_number
    norm_num
  · have h : (reportOf (Pricer.build_report timeParkPricer)).billed_charging_time =
        (1800000 : ℤ) := rfl
    rw [h]
    unfold HoursDecimal.as_num_seconds_number
    norm_num
  · show Number.ceil ((1800 : ℚ) / (3600 : ℚ)) * ((3600 : ℕ) : ℚ) ≠ (1800 : ℚ)
    unfold Number.ceil
    have hc : ⌈(1800 : ℚ) / (3600 : ℚ)⌉ = 1 := by
      rw [Int.ceil_eq_iff]
      norm_num
    rw [hc]
    norm_num

/-- C1 amended witness: for `timeParkPricer` the hypotheses of the amended
theorem hold, the time anchor is `(0, c1pc)` with a parking anchor present,
and the amended conclusion's suppression clause yields a billed charging time
equal to the raw total. -/
theorem C1_step_size_rounding_amended_witness :
    (Pricer.resolve_time_zone timeParkPricer = Except.ok utcTz ∧
     Pricer.select_tariff timeParkPricer timeParkPricer.cdr.start_date_time =
       some (0, Tariff.new timeParkTariff) ∧
     processPeriods (Tariff.new timeParkTariff) LoopState.init
       (ChargeSession.new timeParkPricer.cdr utcTz).periods =
         some timeParkState ∧
     Pricer.build_report timeParkPricer =
       some (Except.ok (reportOf (Pricer.build_report timeParkPricer))) ∧
     timeParkState.step_size.time = some (0, c1pc) ∧
     timeParkState.step_size.parking_time.isSome = true) ∧
    (reportOf (Pricer.build_report timeParkPricer)).billed_charging_time =
      (reportOf (Pricer.build_report timeParkPricer)).total_charging_time :=
  ⟨⟨rfl, rfl, rfl, rfl, rfl, rfl⟩,
   ((C1_step_size_rounding_amended timeParkPricer utcTz 0
      (Tariff.new timeParkTariff) timeParkState
      (reportOf (Pricer.build_report timeParkPricer))
      rfl rfl rfl rfl).2.2 0 c1pc rfl).1 rfl⟩
